import Mathlib

/-!
Verification development for the Tomasulo simulator
(`src/tomasulo_entrega.py`, class `TomasuloSim`).

The Python core is shallowly embedded below.  Python `Optional` fields become
`Option`, Python dictionaries with `.get` defaults become total functions,
machine integers are `Int` (Python has arbitrary precision, so no wrapping),
and code that can raise (`int(...)` in the parser) returns `Option`.
Python `x or 0` on an optional integer is `Option.getD x 0` (both `None` and
`0` map to `0`).  Python `//` is floor division, embedded as `Int.fdiv`.
-/

namespace Tomasulo

/-- A ROB value: Python stores either an `int` or an `(address, data)` tuple
(for stores); the address component may be `None` when the effective address
was never resolved. -/
inductive RobValue where
  | intVal (v : Int)
  | pairVal (addr : Option Int) (v : Int)
deriving DecidableEq, Repr

/-- `@dataclass Instruction` from the source. -/
structure Instruction where
  pc : Int
  text : String
  idx : Nat := 0
  op : String := ""
  rd : Option String := none
  rs : Option String := none
  rt : Option String := none
  imm : Option Int := none
  state : String := "NotFetched"
  rob_id : Option Nat := none
  rs_id : Option Nat := none
  lsb_id : Option Nat := none
  speculative : Bool := false
  fetch_cycle : Option Nat := none
  issue_cycle : Option Nat := none
  exec_start : Option Nat := none
  exec_end : Option Nat := none
  wb_cycle : Option Nat := none
  commit_cycle : Option Nat := none
deriving DecidableEq, Repr

/-- `@dataclass ROBEntry` from the source. -/
structure ROBEntry where
  id : Nat
  busy : Bool := false
  instr_pc : Option Int := none
  dest : Option String := none
  value : Option RobValue := none
  ready : Bool := false
  committed : Bool := false
  speculative : Bool := false
  instr_text : Option String := none
  type : Option String := none
  branch_taken : Option Bool := none
  checkpoint_id : Option Nat := none
  enqueue_seq : Option Nat := none
deriving DecidableEq, Repr

instance : Inhabited ROBEntry := ⟨{ id := 0 }⟩

/-- `@dataclass ReservationStation` from the source. -/
structure ReservationStation where
  id : Nat
  busy : Bool := false
  op : Option String := none
  Vj : Option Int := none
  Vk : Option Int := none
  Qj : Option Nat := none
  Qk : Option Nat := none
  rob_id : Option Nat := none
  instr_pc : Option Int := none
  exec_cycles_left : Nat := 0
deriving DecidableEq, Repr

instance : Inhabited ReservationStation := ⟨{ id := 0 }⟩

/-- `@dataclass LSBEntry` from the source. -/
structure LSBEntry where
  id : Nat
  busy : Bool := false
  op : Option String := none
  address : Option Int := none
  Vt : Option Int := none
  Qt : Option Nat := none
  rob_id : Option Nat := none
  instr_pc : Option Int := none
  exec_cycles_left : Nat := 0
  resolved_address : Bool := false
deriving DecidableEq, Repr

instance : Inhabited LSBEntry := ⟨{ id := 0 }⟩

/-- `@dataclass Checkpoint`: the RAT snapshot is a total function (a Python
dict with default `None`); `copy.deepcopy` of it is the function itself. -/
structure Checkpoint where
  id : Nat
  RAT : String → Option Nat
  enqueue_seq_snapshot : Nat

/-- Structured stand-ins for the formatted log strings appended to
`self.step_logs` (the message text itself is presentation-only). -/
inductive LogEvent where
  | pred (pc : Int) (taken : Bool) (specPc : Int)
  | resolveMispred (pc : Int) (predicted actual : Bool) (newPc : Int)
  | resolveCorrect (pc : Int) (predicted actual : Bool)
deriving Repr

/-- The whole `TomasuloSim` state (`__init__` defaults). Dictionaries
(`memory`, `register_file`, `RAT`, `predictor`, `checkpoints`) are total
functions whose defaults agree with the corresponding `.get` defaults in the
source; `memory` may be keyed by `None` (an unresolved store address), hence
the `Option Int` key. -/
structure Sim where
  rob_size : Nat := 16
  rs_count : Nat := 8
  lsb_size : Nat := 8
  fetch_width : Nat := 1
  issue_width : Nat := 1
  commit_width : Nat := 1
  register_count : Nat := 32
  program : List Instruction := []
  pc : Int := 0
  memory : Option Int → Int := fun _ => 0
  register_file : String → Int := fun _ => 0
  RAT : String → Option Nat := fun _ => none
  rob : List ROBEntry := (List.range 16).map (fun i => { id := i })
  rob_enqueue_seq : Nat := 0
  rs : List ReservationStation := (List.range 8).map (fun i => { id := i })
  lsb : List LSBEntry := (List.range 8).map (fun i => { id := i })
  cycle : Nat := 0
  predictor : Int → Bool := fun _ => false
  checkpoints : Nat → Option Checkpoint := fun _ => none
  next_checkpoint_id : Nat := 1
  active_checkpoint_id : Option Nat := none
  committed_count : Nat := 0
  total_stalls : Nat := 0
  branch_mispredictions : Nat := 0
  total_fetch : Nat := 0
  cumulative_rs_occupancy : Nat := 0
  cumulative_rob_occupancy : Nat := 0
  cumulative_lsb_occupancy : Nat := 0
  step_logs : List LogEvent := []
  halted : Bool := false

/-- The state produced by `TomasuloSim.__init__`. -/
def freshSim : Sim := {}

/-- The latency dictionary `self.latencies`. -/
def latencies : String → Option Nat := fun op =>
  if op = "ADD" then some 2
  else if op = "SUB" then some 2
  else if op = "MUL" then some 4
  else if op = "DIV" then some 8
  else if op = "LW" then some 3
  else if op = "SW" then some 2
  else if op = "BEQ" then some 1
  else if op = "NOP" then some 1
  else none

/-- `self.latencies.get(k, d)`. -/
def latenciesGet (k : String) (d : Nat) : Nat := (latencies k).getD d

/-- Python truthiness of an `Optional[str]` (`None` and `""` are falsy). -/
def truthyS (o : Option String) : Bool := o.getD "" ≠ ""

-- --------------------------
-- Parser (`parse_program_text`)
-- --------------------------

/-- Split a character list on a separator character (Python
`str.split(sep)`: `"a(b" → ["a","b"]`, `"" → [""]`). -/
def splitOnChar (sep : Char) : List Char → List (List Char)
  | [] => [[]]
  | c :: rest =>
    let r := splitOnChar sep rest
    if c = sep then [] :: r
    else
      match r with
      | g :: gs => (c :: g) :: gs
      | [] => [[c]]

/-- Python `str.split()` without arguments: split on whitespace runs,
dropping empty tokens. -/
def splitWSAux : List Char → List Char → List (List Char)
  | [], acc => if acc = [] then [] else [acc.reverse]
  | c :: rest, acc =>
    if c.isWhitespace then
      if acc = [] then splitWSAux rest []
      else acc.reverse :: splitWSAux rest []
    else splitWSAux rest (c :: acc)

def pySplitWS (s : String) : List String :=
  (splitWSAux s.data []).map String.mk

/-- Python `str.strip()` (ASCII whitespace suffices for the claims). -/
def stripChars (cs : List Char) : List Char :=
  ((cs.dropWhile Char.isWhitespace).reverse.dropWhile Char.isWhitespace).reverse

/-- The filtered, stripped lines of `parse_program_text`
(`text.splitlines()` keeps no trailing empty line; splitting on `'\n'` may
produce one, but the empty-line filter makes the difference unobservable). -/
def programLines (text : String) : List String :=
  ((splitOnChar '\n' text.data).map (fun cs => String.mk (stripChars cs))).filter
    (fun l => l ≠ "" ∧ l.data.headD ' ' ≠ '#')

/-- Value of a nonempty all-digit character list, else `none`. -/
def digitsVal (cs : List Char) : Option Nat :=
  if cs = [] then none
  else if cs.all Char.isDigit then
    some (cs.foldl (fun a c => a * 10 + (c.toNat - 48)) 0)
  else none

/-- Python `int(s)` for a token: optional sign then decimal digits, `none`
models the raised `ValueError`.  (Underscore digit grouping and surrounding
whitespace, which Python 3.8 would also accept, are not modelled; no claim
depends on them.) -/
def pyInt (s : String) : Option Int :=
  match s.data with
  | '-' :: rest => (digitsVal rest).map (fun n => -(n : Int))
  | '+' :: rest => (digitsVal rest).map (fun n => (n : Int))
  | cs => (digitsVal cs).map (fun n => (n : Int))

/-- `str.upper()` (ASCII). -/
def pyUpper (s : String) : String := String.mk (s.data.map Char.toUpper)

/-- Parse one line into an `Instruction` (the loop body of
`parse_program_text`); `none` models a raised `ValueError` (from `int(...)`
or from unpacking `imm_part.split('(')` into two names). -/
def parseLine (pc : Int) (idx : Nat) (ln : String) : Option Instruction :=
  -- `parts = ln.replace(',', ' ').split()`
  let parts := pySplitWS (String.mk (ln.data.map (fun c => if c = ',' then ' ' else c)))
  let op := match parts.head? with
    | some p => pyUpper p
    | none => "NOP"
  let instr : Instruction := { pc := pc, text := ln, idx := idx, op := op }
  if op = "ADD" ∨ op = "SUB" ∨ op = "MUL" ∨ op = "DIV" then
    if parts.length ≥ 4 then
      some { instr with
        rd := some (pyUpper (parts.getD 1 ""))
        rs := some (pyUpper (parts.getD 2 ""))
        rt := some (pyUpper (parts.getD 3 "")) }
    else
      some instr
  else if op = "LW" ∨ op = "SW" then
    if parts.length ≥ 3 then
      let rt := some (pyUpper (parts.getD 1 ""))
      let imm_part := parts.getD 2 ""
      if imm_part.data.any (fun c => c = '(') then
        match splitOnChar '(' imm_part.data with
        | [imm, reg] =>
          match pyInt (String.mk imm) with
          | some v =>
            some { instr with
              rt := rt
              imm := some v
              rs := some (pyUpper (String.mk (reg.filter (fun c => c ≠ ')')))) }
          | none => none
        | _ => none
      else
        match pyInt imm_part with
        | some v => some { instr with rt := rt, imm := some v }
        | none => none
    else some instr
  else if op = "BEQ" then
    if parts.length ≥ 4 then
      match pyInt (parts.getD 3 "") with
      | some v =>
        some { instr with
          rs := some (pyUpper (parts.getD 1 ""))
          rt := some (pyUpper (parts.getD 2 ""))
          imm := some v }
      | none => none
    else some instr
  else
    some { instr with op := "NOP" }

/-- The parse loop over the filtered lines (pc starts at 0 and advances by 4,
idx starts at 1). -/
def parseLoop : List String → Int → Nat → Option (List Instruction)
  | [], _, _ => some []
  | ln :: rest, pc, idx =>
    match parseLine pc idx ln with
    | some i =>
      match parseLoop rest (pc + 4) (idx + 1) with
      | some l => some (i :: l)
      | none => none
    | none => none

/-- `parse_program_text(text)`: the resulting program list, or `none` when
the Python code would raise. -/
def parseProgramText (text : String) : Option (List Instruction) :=
  parseLoop (programLines text) 0 1

/-- A freshly constructed simulator holding `prog` (a fresh `TomasuloSim`
followed by `parse_program_text`, which sets `program` and re-zeroes
`pc`/`total_fetch`/`halted` — all already fresh). -/
def initSim (prog : List Instruction) : Sim := { freshSim with program := prog }

/-- Fresh simulator loaded from program text (GUI `load_program`); `none`
when parsing raises. -/
def loadSim (text : String) : Option Sim := (parseProgramText text).map initSim

/-- `TomasuloSim.reset`: `self.__init__()` — a full re-construction. -/
def reset (_ : Sim) : Sim := freshSim

instance : Inhabited Instruction := ⟨{ pc := 0, text := "" }⟩

-- --------------------------
-- Helpers
-- --------------------------

def rob_occupancy (s : Sim) : Nat := (s.rob.filter (·.busy)).length

def rs_occupancy (s : Sim) : Nat := (s.rs.filter (·.busy)).length

def lsb_occupancy (s : Sim) : Nat := (s.lsb.filter (·.busy)).length

def find_free_rob_index (s : Sim) : Option Nat :=
  (List.range s.rob_size).find? (fun i => !(s.rob.getD i default).busy)

def find_free_rs_index (s : Sim) : Option Nat :=
  (s.rs.find? (fun r => !r.busy)).map (·.id)

def find_free_lsb_index (s : Sim) : Option Nat :=
  (s.lsb.find? (fun l => !l.busy)).map (·.id)

/-- Update the program instruction at list index `idx`. -/
def updProgram (s : Sim) (idx : Nat) (f : Instruction → Instruction) : Sim :=
  { s with program := s.program.set idx (f (s.program.getD idx default)) }

-- --------------------------
-- Commit stage
-- --------------------------

/-- The field resets at the end of the commit loop (source lines 318-328);
`speculative` and `id` are left untouched there. -/
def commitFreeEntry (e : ROBEntry) : ROBEntry :=
  { e with
    busy := false
    ready := false
    committed := true
    instr_pc := none
    dest := none
    value := none
    instr_text := none
    type := none
    branch_taken := none
    checkpoint_id := none
    enqueue_seq := none }

/-- The data component stored into the register file at commit
(`ent.value if ent.value is not None else 0`); a pair value never reaches a
REG-typed entry in the source, we take its data component in that dead arm. -/
def robValueScalar : Option RobValue → Int
  | none => 0
  | some (.intVal v) => v
  | some (.pairVal _ v) => v

/-- `for ins in self.program: if ins.pc == pc: ...; break` — first match. -/
def markFirstInstr (p : Instruction → Bool) (f : Instruction → Instruction) :
    List Instruction → List Instruction
  | [] => []
  | i :: rest => if p i then f i :: rest else i :: markFirstInstr p f rest

/-- Commit a single ROB entry (the body of the commit loop for a ready
entry); `ent` is the entry as read at sort time (the source mutates the same
object in place). -/
def commitOne (s : Sim) (ent : ROBEntry) : Sim :=
  let s :=
    if ent.type = some "REG" ∧ truthyS ent.dest then
      let d := ent.dest.getD ""
      if s.RAT d = some ent.id then
        let v := robValueScalar ent.value
        let s := { s with register_file := fun r => if r = d then v else s.register_file r }
        { s with RAT := fun r => if r = d then none else s.RAT r }
      else s
    else if ent.type = some "STORE" then
      match ent.value with
      | some (.pairVal addr v) => { s with memory := fun k => if k = addr then v else s.memory k }
      | _ => s
    else s
  let prog := markFirstInstr (fun ins => ent.instr_pc = some ins.pc)
    (fun ins => { ins with state := "Committed", commit_cycle := some s.cycle }) s.program
  let s := { s with program := prog }
  let s := { s with rob := s.rob.set ent.id (commitFreeEntry ent) }
  { s with committed_count := s.committed_count + 1 }

/-- The commit loop over the `commit_width`-prefix of the sorted busy
entries, stopping at the first non-ready entry.  Also returns the committed
entries, in commit order, as an observation used to state the commit-order
claim. -/
def commitLoop : Sim → List ROBEntry → Sim × List ROBEntry
  | s, [] => (s, [])
  | s, ent :: rest =>
    if ent.ready then
      let r := commitLoop (commitOne s ent) rest
      (r.1, ent :: r.2)
    else (s, [])

/-- The sort key `x.enqueue_seq or 0`. -/
def seqKey (e : ROBEntry) : Nat := e.enqueue_seq.getD 0

/-- Comparison used by `sorted(..., key=lambda x: x.enqueue_seq or 0)`. -/
def seqLe (a b : ROBEntry) : Prop := seqKey a ≤ seqKey b

instance : DecidableRel seqLe := fun _ _ => Nat.decLe _ _

instance : IsTotal ROBEntry seqLe := ⟨fun a b => Nat.le_total (seqKey a) (seqKey b)⟩

instance : IsTrans ROBEntry seqLe := ⟨fun _ _ _ h h' => Nat.le_trans h h'⟩

/-- `sorted([e for e in self.rob if e.busy], key=lambda x: x.enqueue_seq or 0)`
(Python `sorted` is stable and ascending; a stable insertion sort is
extensionally the same function). -/
def sortedBusy (s : Sim) : List ROBEntry :=
  (s.rob.filter (·.busy)).insertionSort seqLe

def commitStageAux (s : Sim) : Sim × List ROBEntry :=
  commitLoop s ((sortedBusy s).take s.commit_width)

def commitStage (s : Sim) : Sim := (commitStageAux s).1

-- --------------------------
-- Write-Result stage
-- --------------------------

/-- A CDB result `(rob_id, op, value)`. -/
abbrev CDBResult := Nat × Option String × RobValue

/-- The station resets used when a RS entry retires or is flushed. -/
def clearRS (r : ReservationStation) : ReservationStation :=
  { r with
    busy := false
    op := none
    Vj := none
    Vk := none
    Qj := none
    Qk := none
    rob_id := none
    instr_pc := none
    exec_cycles_left := 0 }

/-- LSB reset in `write_result_stage` (clears `resolved_address` too). -/
def clearLSB (l : LSBEntry) : LSBEntry :=
  { l with
    busy := false
    op := none
    address := none
    Vt := none
    Qt := none
    rob_id := none
    instr_pc := none
    exec_cycles_left := 0
    resolved_address := false }

/-- LSB reset in the misprediction flush (source lines 682-689; it does not
touch `resolved_address`). -/
def clearLSBFlush (l : LSBEntry) : LSBEntry :=
  { l with
    busy := false
    op := none
    address := none
    Vt := none
    Qt := none
    rob_id := none
    instr_pc := none
    exec_cycles_left := 0 }

/-- Mark every program instruction at `pc` as written back (the source loop
has no `break` here). -/
def markWBAll (s : Sim) (pc : Option Int) : Sim :=
  { s with program := s.program.map (fun ins =>
      if pc = some ins.pc then { ins with state := "WB", wb_cycle := some s.cycle }
      else ins) }

/-- ALU value for a retiring RS entry (Python `//` is floor division;
division by zero yields 0; a non-arithmetic op falls back to `Vj or 0`). -/
def aluVal (op : Option String) (vj vk : Option Int) : Int :=
  let a := vj.getD 0
  let b := vk.getD 0
  if op = some "ADD" then a + b
  else if op = some "SUB" then a - b
  else if op = some "MUL" then a * b
  else if op = some "DIV" then (if b ≠ 0 then Int.fdiv a b else 0)
  else vj.getD 0

/-- One iteration of the RS scan in `write_result_stage`. -/
def wrRSStep (acc : Sim × List CDBResult) (i : Nat) : Sim × List CDBResult :=
  let s := acc.1
  let results := acc.2
  let r := s.rs.getD i default
  if r.busy ∧ r.exec_cycles_left = 0 ∧ r.rob_id.isSome then
    let rid := r.rob_id.getD 0
    if r.op = some "BEQ" then
      let taken := decide (r.Vj.getD 0 = r.Vk.getD 0)
      let s :=
        if rid < s.rob_size then
          let e := { (s.rob.getD rid default) with branch_taken := some taken, ready := true }
          { s with rob := s.rob.set rid e }
        else s
      let s := markWBAll s r.instr_pc
      let s := { s with rs := s.rs.set i (clearRS r) }
      (s, results)
    else
      let val := aluVal r.op r.Vj r.Vk
      let s := { s with rs := s.rs.set i (clearRS r) }
      let s := markWBAll s r.instr_pc
      (s, results ++ [(rid, r.op, RobValue.intVal val)])
  else acc

/-- One iteration of the LSB scan in `write_result_stage`. -/
def wrLSBStep (acc : Sim × List CDBResult) (i : Nat) : Sim × List CDBResult :=
  let s := acc.1
  let results := acc.2
  let l := s.lsb.getD i default
  if l.busy ∧ l.exec_cycles_left = 0 ∧ l.rob_id.isSome then
    let rid := l.rob_id.getD 0
    let results :=
      if l.op = some "LW" then
        results ++ [(rid, some "LW", RobValue.intVal (s.memory l.address))]
      else if l.op = some "SW" then
        results ++ [(rid, some "SW", RobValue.pairVal l.address (l.Vt.getD 0))]
      else results
    let s := { s with lsb := s.lsb.set i (clearLSB l) }
    let s := markWBAll s l.instr_pc
    (s, results)
  else acc

/-- The scalar a dependent captures off the CDB: the value itself, or the
data component of a store pair.  (In the source the non-`SW` arm for a pair
is dead: pair values only ever come from `SW` results.) -/
def cdbCapture (v : RobValue) : Int :=
  match v with
  | .intVal x => x
  | .pairVal _ x => x

/-- Broadcast one result on the CDB. -/
def applyResult (s : Sim) (res : CDBResult) : Sim :=
  let rid := res.1
  let value := res.2.2
  let s :=
    if rid < s.rob_size then
      let e := { (s.rob.getD rid default) with value := some value, ready := true }
      { s with rob := s.rob.set rid e }
    else s
  let cap := cdbCapture value
  let rs' := s.rs.map (fun r =>
    if r.busy then
      let r := if r.Qj = some rid then { r with Vj := some cap, Qj := none } else r
      if r.Qk = some rid then { r with Vk := some cap, Qk := none } else r
    else r)
  let lsb' := s.lsb.map (fun l =>
    if l.busy ∧ l.Qt = some rid then { l with Vt := some cap, Qt := none } else l)
  { s with rs := rs', lsb := lsb' }

def writeResultStage (s : Sim) : Sim :=
  let acc := (List.range s.rs.length).foldl wrRSStep (s, [])
  let acc := (List.range acc.1.lsb.length).foldl wrLSBStep acc
  acc.2.foldl applyResult acc.1

-- --------------------------
-- Execute stage
-- --------------------------

/-- One RS iteration of `execute_stage`: an unconditional decrement for
every busy station with remaining cycles (no operand-tag gating in the
source). -/
def execRSStep (s : Sim) (i : Nat) : Sim :=
  let r := s.rs.getD i default
  if r.busy ∧ r.exec_cycles_left > 0 then
    let r' := { r with exec_cycles_left := r.exec_cycles_left - 1 }
    let s := { s with rs := s.rs.set i r' }
    let prog := s.program.map (fun ins =>
      if r.instr_pc = some ins.pc then
        let ins := { ins with state := "Executing" }
        if r'.exec_cycles_left = 0 then { ins with exec_end := some s.cycle } else ins
      else ins)
    { s with program := prog }
  else s

def execLSBStep (s : Sim) (i : Nat) : Sim :=
  let l := s.lsb.getD i default
  if l.busy ∧ l.exec_cycles_left > 0 then
    let l' := { l with exec_cycles_left := l.exec_cycles_left - 1 }
    let s := { s with lsb := s.lsb.set i l' }
    let prog := s.program.map (fun ins =>
      if l.instr_pc = some ins.pc then
        let ins := { ins with state := "Executing" }
        if l'.exec_cycles_left = 0 then { ins with exec_end := some s.cycle } else ins
      else ins)
    { s with program := prog }
  else s

def executeStage (s : Sim) : Sim :=
  let s := (List.range s.rs.length).foldl execRSStep s
  (List.range s.lsb.length).foldl execLSBStep s

-- --------------------------
-- Branch resolution
-- --------------------------

/-- ROB field resets in the misprediction flush (source lines 691-699;
`committed`, `branch_taken` and `checkpoint_id` are left untouched there). -/
def clearROBFlush (e : ROBEntry) : ROBEntry :=
  { e with
    busy := false
    ready := false
    instr_pc := none
    dest := none
    value := none
    instr_text := none
    type := none
    speculative := false
    enqueue_seq := none }

/-- One iteration of the flush loop (`for e in self.rob`) on a
misprediction; `ent` is the resolving branch entry.  `e != ent` in the
source is dataclass field inequality, which for distinct ROB slots reduces
to distinct `id` fields. -/
def flushStep (ent : ROBEntry) (s : Sim) (j : Nat) : Sim :=
  let e := s.rob.getD j default
  if e.busy ∧ e.speculative ∧ e ≠ ent then
    let rs' := s.rs.map (fun r =>
      if r.busy ∧ r.rob_id = some e.id then clearRS r else r)
    let lsb' := s.lsb.map (fun l =>
      if l.busy ∧ l.rob_id = some e.id then clearLSBFlush l else l)
    let s := { s with rs := rs', lsb := lsb' }
    { s with rob := s.rob.set j (clearROBFlush e) }
  else s

/-- `target_pc`: the `imm` of the first program instruction at `instr_pc`
(the source loop breaks at the first match). -/
def branchTarget (s : Sim) (instr_pc : Int) : Option Int :=
  ((s.program.find? (fun ins => ins.pc = instr_pc)).map (·.imm)).getD none

def deleteCheckpoint (s : Sim) (c : Nat) : Sim :=
  { s with checkpoints := fun k => if k = c then none else s.checkpoints k }

/-- Body of `resolve_branches` for the ROB entry at index `i`. -/
def resolveOne (s : Sim) (i : Nat) : Sim :=
  let ent := s.rob.getD i default
  if ent.busy ∧ ent.type = some "BRANCH" ∧ ent.ready then
    match ent.instr_pc with
    | none => s
    | some instr_pc =>
      let predicted := s.predictor instr_pc
      let actual := ent.branch_taken.getD false
      let s := { s with predictor := fun p => if p = instr_pc then actual else s.predictor p }
      let cp_id := ent.checkpoint_id
      if predicted ≠ actual then
        let s := { s with branch_mispredictions := s.branch_mispredictions + 1 }
        let s := (List.range s.rob.length).foldl (flushStep ent) s
        -- `if cp_id and cp_id in self.checkpoints:` (Python truthiness of the id)
        let cpLive : Bool := match cp_id with
          | some c => decide (c ≠ 0) && (s.checkpoints c).isSome
          | none => false
        if cpLive then
          let c := cp_id.getD 0
          let cp := (s.checkpoints c).getD ⟨0, fun _ => none, 0⟩
          let s := { s with RAT := cp.RAT }
          let target_pc := branchTarget s instr_pc
          let new_pc : Int :=
            if actual ∧ target_pc.isSome then target_pc.getD 0 else instr_pc + 4
          let s := { s with pc := new_pc }
          let prog := s.program.map (fun ins =>
            if ins.speculative then { ins with state := "Flushed", speculative := false }
            else ins)
          let s := { s with program := prog }
          let s := deleteCheckpoint s c
          let s := { s with step_logs := s.step_logs ++ [LogEvent.resolveMispred instr_pc predicted actual new_pc] }
          { s with active_checkpoint_id := none }
        else
          -- `new_pc` stays `None`; the log falls back to the current pc
          let s := { s with step_logs := s.step_logs ++ [LogEvent.resolveMispred instr_pc predicted actual s.pc] }
          { s with active_checkpoint_id := none }
      else
        let s := { s with rob := s.rob.set i { ent with speculative := false } }
        let s := match cp_id with
          | some c => if c ≠ 0 ∧ (s.checkpoints c).isSome then deleteCheckpoint s c else s
          | none => s
        let rob' := s.rob.map (fun e2 =>
          if e2.checkpoint_id = cp_id then { e2 with speculative := false } else e2)
        let prog := s.program.map (fun ins =>
          if ins.speculative then { ins with speculative := false } else ins)
        let s := { s with rob := rob', program := prog }
        let s := { s with step_logs := s.step_logs ++ [LogEvent.resolveCorrect instr_pc predicted actual] }
        { s with active_checkpoint_id := none }
  else s

def resolveBranches (s : Sim) : Sim :=
  (List.range s.rob.length).foldl resolveOne s

/-- The misprediction branch of `resolveOne`, written as a standalone state
transformer for a branch entry at ROB index `i` with instruction pc `pc0`
and checkpoint id `c`.  `resolveOne` reduces to this under the misprediction
hypotheses (see `resolveOne_mispredict_eq`). -/
def mispredictPre (s : Sim) (i : Nat) (pc0 : Int) : Sim :=
  let ent := s.rob.getD i default
  let actual := ent.branch_taken.getD false
  let s1 := { s with predictor := fun p => if p = pc0 then actual else s.predictor p }
  { s1 with branch_mispredictions := s1.branch_mispredictions + 1 }

def mispredictResult (s : Sim) (i : Nat) (pc0 : Int) (c : Nat) : Sim :=
  let ent := s.rob.getD i default
  let actual := ent.branch_taken.getD false
  let s2 := mispredictPre s i pc0
  let s3 := (List.range s2.rob.length).foldl (flushStep ent) s2
  let cp := (s3.checkpoints c).getD ⟨0, fun _ => none, 0⟩
  let s4 := { s3 with RAT := cp.RAT }
  -- `s4.program` is definitionally `s3.program`, so the target lookup may
  -- read it off `s3`
  let target_pc := branchTarget s3 pc0
  let new_pc : Int :=
    if actual ∧ target_pc.isSome then target_pc.getD 0 else pc0 + 4
  let s5 := { s4 with pc := new_pc }
  let prog := s5.program.map (fun ins =>
    if ins.speculative then { ins with state := "Flushed", speculative := false }
    else ins)
  let s6 := { s5 with program := prog }
  let s7 := deleteCheckpoint s6 c
  let s8 := { s7 with step_logs := s7.step_logs ++
    [LogEvent.resolveMispred pc0 (s.predictor pc0) actual new_pc] }
  { s8 with active_checkpoint_id := none }

-- --------------------------
-- Issue stage
-- --------------------------

/-- `next((i for i in self.program if i.pc == self.pc and i.state == "NotFetched"), None)` -/
def issueFindInstrIdx (s : Sim) : Option Nat :=
  s.program.findIdx? (fun ins => ins.pc = s.pc ∧ ins.state = "NotFetched")

/-- The per-issue bookkeeping footer (source lines 638-641). -/
def issueFooter (s : Sim) : Sim :=
  { s with
    cumulative_rs_occupancy := s.cumulative_rs_occupancy + rs_occupancy s
    cumulative_rob_occupancy := s.cumulative_rob_occupancy + rob_occupancy s
    cumulative_lsb_occupancy := s.cumulative_lsb_occupancy + lsb_occupancy s
    total_fetch := s.total_fetch + 1 }

/-- Allocate and fill the ROB entry for an issuing instruction (source lines
487-509; `dest`, `value` and `branch_taken` of the recycled slot are not
reset there — `dest` is then assigned per type, except in the unknown-op
fallback arm, which only sets `type`). -/
def issueFillROB (s : Sim) (instr : Instruction) (free_rob_idx : Nat) : Sim :=
  let e := { (s.rob.getD free_rob_idx default) with
    busy := true
    instr_pc := some instr.pc
    instr_text := some instr.text
    ready := false
    committed := false
    checkpoint_id := none
    enqueue_seq := some s.rob_enqueue_seq
    speculative := false }
  let e :=
    if instr.op = "ADD" ∨ instr.op = "SUB" ∨ instr.op = "MUL" ∨ instr.op = "DIV" ∨ instr.op = "LW" then
      { e with
        type := some "REG"
        dest := if truthyS instr.rd then instr.rd
                else (if instr.op = "LW" then instr.rt else none) }
    else if instr.op = "SW" then { e with type := some "STORE", dest := none }
    else if instr.op = "BEQ" then { e with type := some "BRANCH", dest := none }
    else { e with type := some "REG" }
  { s with rob := s.rob.set free_rob_idx e, rob_enqueue_seq := s.rob_enqueue_seq + 1 }

/-- BEQ checkpointing, speculation marking, and pc redirection at issue
(source lines 511-539). -/
def issueSpeculation (s : Sim) (instrIdx : Nat) (instr : Instruction) (free_rob_idx : Nat) : Sim :=
  if instr.op = "BEQ" then
    let cp_id := s.next_checkpoint_id
    let s := { s with next_checkpoint_id := s.next_checkpoint_id + 1, active_checkpoint_id := some cp_id }
    let cp : Checkpoint := ⟨cp_id, s.RAT, s.rob_enqueue_seq⟩
    let s := { s with checkpoints := fun k => if k = cp_id then some cp else s.checkpoints k }
    let e := { (s.rob.getD free_rob_idx default) with checkpoint_id := some cp_id, speculative := true }
    let s := { s with rob := s.rob.set free_rob_idx e }
    let s := updProgram s instrIdx (fun i => { i with speculative := true })
    let pred := s.predictor instr.pc
    let spec_pc : Int := if pred ∧ instr.imm.isSome then instr.imm.getD 0 else instr.pc + 4
    let s := { s with step_logs := s.step_logs ++ [LogEvent.pred instr.pc pred spec_pc] }
    if pred ∧ instr.imm.isSome then { s with pc := instr.imm.getD 0 }
    else { s with pc := s.pc + 4 }
  else
    let s := { s with pc := s.pc + 4 }
    if s.active_checkpoint_id.isSome then
      let e := { (s.rob.getD free_rob_idx default) with
        speculative := true
        checkpoint_id := s.active_checkpoint_id }
      let s := { s with rob := s.rob.set free_rob_idx e }
      updProgram s instrIdx (fun i => { i with speculative := true })
    else s

/-- The load/store dispatch block (source lines 542-578).  Note the
effective address stays `None` when the base register is renamed, and the
remaining-cycles counter is loaded from the `"LW"` latency for both LW and
SW. -/
def issueLoadStore (s : Sim) (instrIdx : Nat) (instr : Instruction) (free_rob_idx free_lsb : Nat) : Sim :=
  let l0 := s.lsb.getD free_lsb default
  let l := { l0 with
    busy := true
    op := some instr.op
    instr_pc := some instr.pc
    rob_id := some free_rob_idx }
  let base := instr.rs
  let offset := instr.imm.getD 0
  let l :=
    if truthyS base then
      let b := base.getD ""
      let rat := s.RAT b
      if rat.isSome then
        -- `l.address = self.register_file.get(base, 0) + offset if rat is None else None`
        { l with address := if rat.isNone then some (s.register_file b + offset) else none }
      else
        { l with address := some (s.register_file b + offset) }
    else l
  let l :=
    if instr.op = "SW" then
      if truthyS instr.rt then
        let src := instr.rt.getD ""
        match s.RAT src with
        | some t => { l with Qt := some t, Vt := none }
        | none => { l with Qt := none, Vt := some (s.register_file src) }
      else l
    else l
  let l := { l with exec_cycles_left := latenciesGet "LW" 3 }
  let s := { s with lsb := s.lsb.set free_lsb l }
  let s :=
    if instr.op = "LW" then
      let e := { (s.rob.getD free_rob_idx default) with dest := instr.rt }
      let s := { s with rob := s.rob.set free_rob_idx e }
      match instr.rt with
      | some rt => { s with RAT := fun rg => if rg = rt then some free_rob_idx else s.RAT rg }
      | none => s   -- Python would add a `None` key that no string lookup observes
    else s
  updProgram s instrIdx (fun i => { i with
    lsb_id := some l.id
    rob_id := some free_rob_idx
    state := "Issued"
    issue_cycle := some s.cycle })

/-- Operand capture for the two RS source registers (shared by the BEQ and
arithmetic dispatch blocks). -/
def rsCaptureOperands (s : Sim) (instr : Instruction) (r : ReservationStation) : ReservationStation :=
  let r :=
    if truthyS instr.rs then
      let b := instr.rs.getD ""
      match s.RAT b with
      | some t => { r with Qj := some t }
      | none => { r with Vj := some (s.register_file b) }
    else r
  if truthyS instr.rt then
    let b := instr.rt.getD ""
    match s.RAT b with
    | some t => { r with Qk := some t }
    | none => { r with Vk := some (s.register_file b) }
  else r

/-- The BEQ dispatch block (source lines 580-605). -/
def issueBranch (s : Sim) (instrIdx : Nat) (instr : Instruction) (free_rob_idx free_rs : Nat) : Sim :=
  let r0 := s.rs.getD free_rs default
  let r := { r0 with
    busy := true
    op := some "BEQ"
    instr_pc := some instr.pc
    rob_id := some free_rob_idx }
  let r := rsCaptureOperands s instr r
  let r := { r with exec_cycles_left := latenciesGet "BEQ" 1 }
  let s := { s with rs := s.rs.set free_rs r }
  updProgram s instrIdx (fun i => { i with
    rob_id := some free_rob_idx
    rs_id := some r.id
    state := "Issued"
    issue_cycle := some s.cycle })

/-- The arithmetic dispatch block (source lines 607-636). -/
def issueArith (s : Sim) (instrIdx : Nat) (instr : Instruction) (free_rob_idx free_rs : Nat) : Sim :=
  let r0 := s.rs.getD free_rs default
  let r := { r0 with
    busy := true
    op := some instr.op
    instr_pc := some instr.pc
    rob_id := some free_rob_idx }
  let r := rsCaptureOperands s instr r
  let r := { r with exec_cycles_left := latenciesGet instr.op 2 }
  let s := { s with rs := s.rs.set free_rs r }
  let dest := (s.rob.getD free_rob_idx default).dest
  let s :=
    if truthyS dest then
      let d := dest.getD ""
      { s with RAT := fun rg => if rg = d then some free_rob_idx else s.RAT rg }
    else s
  updProgram s instrIdx (fun i => { i with
    rob_id := some free_rob_idx
    rs_id := some r.id
    state := "Issued"
    issue_cycle := some s.cycle })

/-- Issue one instruction that already has its ROB slot and station slot. -/
def issueOne (s : Sim) (instrIdx : Nat) (instr : Instruction) (free_rob_idx : Nat)
    (free_lsb : Option Nat) (free_rs : Option Nat) : Sim :=
  let s := issueFillROB s instr free_rob_idx
  let s := issueSpeculation s instrIdx instr free_rob_idx
  let s :=
    if instr.op = "LW" ∨ instr.op = "SW" then
      issueLoadStore s instrIdx instr free_rob_idx (free_lsb.getD 0)
    else if instr.op = "BEQ" then
      issueBranch s instrIdx instr free_rob_idx (free_rs.getD 0)
    else
      issueArith s instrIdx instr free_rob_idx (free_rs.getD 0)
  issueFooter s

/-- The issue loop (`for _ in range(self.issue_width)`), with the stall
`break`s and the dead-code `continue` that only advances the pc. -/
def issueLoop : Sim → Nat → Nat → Sim × Nat
  | s, issued, 0 => (s, issued)
  | s, issued, n+1 =>
    match issueFindInstrIdx s with
    | none =>
      if s.program.any (fun i => i.state = "NotFetched") then
        issueLoop { s with pc := s.pc + 4 } issued n
      else (s, issued)
    | some instrIdx =>
      let instr := s.program.getD instrIdx default
      match find_free_rob_index s with
      | none => ({ s with total_stalls := s.total_stalls + 1 }, issued)
      | some free_rob_idx =>
        if instr.op = "LW" ∨ instr.op = "SW" then
          match find_free_lsb_index s with
          | none => ({ s with total_stalls := s.total_stalls + 1 }, issued)
          | some free_lsb =>
            issueLoop (issueOne s instrIdx instr free_rob_idx (some free_lsb) none) (issued + 1) n
        else
          match find_free_rs_index s with
          | none => ({ s with total_stalls := s.total_stalls + 1 }, issued)
          | some free_rs =>
            issueLoop (issueOne s instrIdx instr free_rob_idx none (some free_rs)) (issued + 1) n

def issueStage (s : Sim) : Sim × Nat := issueLoop s 0 s.issue_width

-- --------------------------
-- Step
-- --------------------------

/-- The extra BEQ-readiness scan between Write-Result and branch resolution
(source lines 768-782). -/
def beqCheckStep (s : Sim) (i : Nat) : Sim :=
  let r := s.rs.getD i default
  if r.busy ∧ r.op = some "BEQ" ∧ r.Qj = none ∧ r.Qk = none ∧ r.rob_id.isSome ∧
      r.exec_cycles_left = 0 then
    let taken := decide (r.Vj.getD 0 = r.Vk.getD 0)
    let rid := r.rob_id.getD 0
    let e := { (s.rob.getD rid default) with branch_taken := some taken, ready := true }
    { s with rob := s.rob.set rid e }
  else s

def haltCheck (s : Sim) : Sim :=
  if s.rob.all (fun e => !e.busy) ∧ s.rs.all (fun r => !r.busy) ∧
      s.lsb.all (fun l => !l.busy) then
    if s.program.all (fun ins =>
        ins.state = "Committed" ∨ ins.state = "Flushed" ∨ ins.state = "NOP") then
      { s with halted := true }
    else s
  else s

/-- The cycle prologue of `step` (log reset, cycle increment, occupancy
accumulation; source lines 755-766). -/
def preCommit (s : Sim) : Sim :=
  let s := { s with step_logs := [] }
  let s := { s with cycle := s.cycle + 1 }
  { s with
    cumulative_rs_occupancy := s.cumulative_rs_occupancy + rs_occupancy s
    cumulative_rob_occupancy := s.cumulative_rob_occupancy + rob_occupancy s
    cumulative_lsb_occupancy := s.cumulative_lsb_occupancy + lsb_occupancy s }

/-- The stages of `step` that follow Commit (source lines 767-801). -/
def postCommit (s : Sim) : Sim :=
  let s := writeResultStage s
  let s := (List.range s.rs.length).foldl beqCheckStep s
  let s := resolveBranches s
  let s := executeStage s
  let s := (issueStage s).1
  haltCheck s

/-- One cycle (`TomasuloSim.step`): the prologue, then Commit, then the
remaining stages.  Besides the successor state it returns the ROB entries
committed this cycle, in commit order — the observation used by the
commit-order claim. -/
def stepAux (s : Sim) : Sim × List ROBEntry :=
  if s.halted then (s, [])
  else
    let s := preCommit s
    let ct := commitStageAux s
    (postCommit ct.1, ct.2)

def step (s : Sim) : Sim := (stepAux s).1

def stepN (s : Sim) : Nat → Sim
  | 0 => s
  | n+1 => stepN (step s) n

/-- Enqueue sequences of all entries committed over an `n`-step run, in
commit order. -/
def runTrace (s : Sim) : Nat → List Nat
  | 0 => []
  | n+1 => ((stepAux s).2.map (fun e => e.enqueue_seq.getD 0)) ++ runTrace (step s) n

-- --------------------------
-- Concrete programs used in the claim analyses
-- --------------------------

/-- A long-latency producer feeding a short-latency consumer: the ADD's tag
`Qj` on the MUL's ROB entry is still pending when its counter drains. -/
def progTagRace : List Instruction :=
  (parseProgramText "MUL R1, R2, R3\nADD R4, R1, R5").getD []

/-- A single SW, to observe the latency loaded at dispatch. -/
def progSWLat : List Instruction :=
  (parseProgramText "SW R1, 0(R2)").getD []

/-- An ADD that commits while a later branch is still unresolved, followed
by a mispredicting BEQ: the checkpoint RAT snapshot still names the ADD's
ROB slot when it is restored. -/
def progRatRestore : List Instruction :=
  (parseProgramText "ADD R1, R2, R3\nMUL R4, R5, R6\nBEQ R4, R0, 0\nADD R7, R8, R9").getD []

/-- SW and LW issued while their base register R1 is renamed. -/
def progLsbRenamed : List Instruction :=
  (parseProgramText "ADD R1, R2, R3\nSW R4, 0(R1)\nLW R5, 0(R1)").getD []

/-- A one-instruction program. -/
def progAddOne : List Instruction :=
  (parseProgramText "ADD R1, R2, R3").getD []

/-- A concrete state holding one ready mispredicted BEQ in ROB slot 0
(predicted not-taken, actually taken, live checkpoint 1) and one busy
speculative REG entry in slot 1 whose reservation station is slot 0. -/
def c3WitnessState : Sim :=
  { freshSim with
    program := [{ pc := 0, text := "BEQ R0, R0, 8", idx := 1, op := "BEQ",
                  rs := some "R0", rt := some "R0", imm := some 8 }]
    rob := (List.range 16).map (fun j =>
      if j = 0 then
        { id := 0, busy := true, instr_pc := some 0, ready := true,
          speculative := true, type := some "BRANCH", branch_taken := some true,
          checkpoint_id := some 1, enqueue_seq := some 0 }
      else if j = 1 then
        { id := 1, busy := true, instr_pc := some 4, speculative := true,
          type := some "REG", dest := some "R2", enqueue_seq := some 1 }
      else { id := j })
    rs := (List.range 8).map (fun k =>
      if k = 0 then { id := 0, busy := true, op := some "ADD", rob_id := some 1 }
      else { id := k })
    checkpoints := fun k => if k = 1 then some ⟨1, fun _ => none, 1⟩ else none
    next_checkpoint_id := 2
    active_checkpoint_id := some 1 }

/-- The busy/sequence observation of a ROB slot. -/
def busySeq (e : ROBEntry) : Bool × Option Nat := (e.busy, e.enqueue_seq)

/-- Structural invariant of the ROB maintained cycle to cycle: the slot
array has the configured size, the commit width is the configured 1, slot
ids match indices, every busy entry carries an enqueue sequence below the
allocation counter, and busy entries have pairwise distinct sequences. -/
def CommitInv (s : Sim) : Prop :=
  s.rob.length = s.rob_size ∧
  s.commit_width = 1 ∧
  (∀ j, j < s.rob.length → (s.rob.getD j default).id = j) ∧
  (∀ j, (s.rob.getD j default).busy = true →
    ∃ q, (s.rob.getD j default).enqueue_seq = some q ∧ q < s.rob_enqueue_seq) ∧
  (∀ j k, j ≠ k → (s.rob.getD j default).busy = true →
    (s.rob.getD k default).busy = true →
    seqKey (s.rob.getD j default) ≠ seqKey (s.rob.getD k default))

/-- Weak pointwise preservation of the ROB by a stage: configuration and
the allocation counter are kept, ids are kept, and each slot either keeps
its busy/sequence observation or is freed. -/
def WeakPres (s s' : Sim) : Prop :=
  s'.rob.length = s.rob.length ∧
  s'.rob_size = s.rob_size ∧
  s'.commit_width = s.commit_width ∧
  s'.rob_enqueue_seq = s.rob_enqueue_seq ∧
  (∀ j, (s'.rob.getD j default).id = (s.rob.getD j default).id) ∧
  (∀ j, busySeq (s'.rob.getD j default) = busySeq (s.rob.getD j default) ∨
    (s'.rob.getD j default).busy = false)

/-- Relation between the state before and after any suffix of a cycle: each
slot keeps its observation, is freed, or is a fresh allocation whose
sequence lies between the old and new allocation counters. -/
def PostRel (s s' : Sim) : Prop :=
  s'.rob.length = s.rob.length ∧
  s'.rob_size = s.rob_size ∧
  s'.commit_width = s.commit_width ∧
  s.rob_enqueue_seq ≤ s'.rob_enqueue_seq ∧
  (∀ j, (s'.rob.getD j default).id = (s.rob.getD j default).id) ∧
  (∀ j, busySeq (s'.rob.getD j default) = busySeq (s.rob.getD j default) ∨
    (s'.rob.getD j default).busy = false ∨
    (∃ q, (s'.rob.getD j default).enqueue_seq = some q ∧
      s.rob_enqueue_seq ≤ q ∧ q < s'.rob_enqueue_seq))

end Tomasulo

-- --------------------------
-- Theorems
-- --------------------------

namespace Tomasulo

/-- A projection that every step of a fold preserves is preserved by the
whole fold. -/
theorem foldl_proj_eq {σ α β : Type} (proj : σ → β) (f : σ → α → σ)
    (h : ∀ s a, proj (f s a) = proj s) :
    ∀ (l : List α) (s : σ), proj (List.foldl f s l) = proj s
  | [], _ => rfl
  | a :: l, s => (foldl_proj_eq proj f h l (f s a)).trans (h s a)

/-- A predicate that every step of a fold preserves is preserved by the
whole fold. -/
theorem foldl_preserves {σ α : Type} (P : σ → Prop) (f : σ → α → σ)
    (h : ∀ s a, P s → P (f s a)) :
    ∀ (l : List α) (s : σ), P s → P (List.foldl f s l)
  | [], _, hs => hs
  | a :: l, s, hs => foldl_preserves P f h l (f s a) (h s a hs)

-- Per-step frame lemmas: no stage except Commit touches the architectural
-- register file or the memory.

theorem wrRSStep_register_file (acc : Sim × List CDBResult) (i : Nat) :
    (wrRSStep acc i).1.register_file = acc.1.register_file := by
  simp only [wrRSStep, markWBAll]
  repeat' split
  all_goals rfl

theorem wrRSStep_memory (acc : Sim × List CDBResult) (i : Nat) :
    (wrRSStep acc i).1.memory = acc.1.memory := by
  simp only [wrRSStep, markWBAll]
  repeat' split
  all_goals rfl

theorem wrLSBStep_register_file (acc : Sim × List CDBResult) (i : Nat) :
    (wrLSBStep acc i).1.register_file = acc.1.register_file := by
  simp only [wrLSBStep, markWBAll]
  repeat' split
  all_goals rfl

theorem wrLSBStep_memory (acc : Sim × List CDBResult) (i : Nat) :
    (wrLSBStep acc i).1.memory = acc.1.memory := by
  simp only [wrLSBStep, markWBAll]
  repeat' split
  all_goals rfl

theorem applyResult_register_file (s : Sim) (res : CDBResult) :
    (applyResult s res).register_file = s.register_file := by
  simp only [applyResult]
  repeat' split
  all_goals rfl

theorem applyResult_memory (s : Sim) (res : CDBResult) :
    (applyResult s res).memory = s.memory := by
  simp only [applyResult]
  repeat' split
  all_goals rfl

theorem writeResultStage_register_file (s : Sim) :
    (writeResultStage s).register_file = s.register_file := by
  unfold writeResultStage
  rw [foldl_proj_eq (fun s => s.register_file) applyResult applyResult_register_file]
  rw [foldl_proj_eq (fun acc => acc.1.register_file) wrLSBStep wrLSBStep_register_file]
  rw [foldl_proj_eq (fun acc => acc.1.register_file) wrRSStep wrRSStep_register_file]

theorem writeResultStage_memory (s : Sim) :
    (writeResultStage s).memory = s.memory := by
  unfold writeResultStage
  rw [foldl_proj_eq (fun s => s.memory) applyResult applyResult_memory]
  rw [foldl_proj_eq (fun acc => acc.1.memory) wrLSBStep wrLSBStep_memory]
  rw [foldl_proj_eq (fun acc => acc.1.memory) wrRSStep wrRSStep_memory]

theorem flushStep_register_file (ent : ROBEntry) (s : Sim) (j : Nat) :
    (flushStep ent s j).register_file = s.register_file := by
  simp only [flushStep]
  repeat' split
  all_goals rfl

theorem flushStep_memory (ent : ROBEntry) (s : Sim) (j : Nat) :
    (flushStep ent s j).memory = s.memory := by
  simp only [flushStep]
  repeat' split
  all_goals rfl

theorem flushFold_register_file (ent : ROBEntry) (l : List Nat) (s : Sim) :
    (List.foldl (flushStep ent) s l).register_file = s.register_file :=
  foldl_proj_eq (fun st : Sim => st.register_file) (flushStep ent)
    (flushStep_register_file ent) l s

theorem flushFold_memory (ent : ROBEntry) (l : List Nat) (s : Sim) :
    (List.foldl (flushStep ent) s l).memory = s.memory :=
  foldl_proj_eq (fun st : Sim => st.memory) (flushStep ent) (flushStep_memory ent) l s

theorem resolveOne_register_file (s : Sim) (i : Nat) :
    (resolveOne s i).register_file = s.register_file := by
  simp only [resolveOne, deleteCheckpoint]
  repeat' split
  all_goals first
  | rfl
  | exact flushFold_register_file _ _ _

theorem resolveOne_memory (s : Sim) (i : Nat) :
    (resolveOne s i).memory = s.memory := by
  simp only [resolveOne, deleteCheckpoint]
  repeat' split
  all_goals first
  | rfl
  | exact flushFold_memory _ _ _

theorem resolveBranches_register_file (s : Sim) :
    (resolveBranches s).register_file = s.register_file := by
  unfold resolveBranches
  exact foldl_proj_eq (fun st : Sim => st.register_file) _ resolveOne_register_file _ _

theorem resolveBranches_memory (s : Sim) :
    (resolveBranches s).memory = s.memory := by
  unfold resolveBranches
  exact foldl_proj_eq (fun st : Sim => st.memory) _ resolveOne_memory _ _

theorem execRSStep_register_file (s : Sim) (i : Nat) :
    (execRSStep s i).register_file = s.register_file := by
  simp only [execRSStep]
  repeat' split
  all_goals rfl

theorem execRSStep_memory (s : Sim) (i : Nat) :
    (execRSStep s i).memory = s.memory := by
  simp only [execRSStep]
  repeat' split
  all_goals rfl

theorem execLSBStep_register_file (s : Sim) (i : Nat) :
    (execLSBStep s i).register_file = s.register_file := by
  simp only [execLSBStep]
  repeat' split
  all_goals rfl

theorem execLSBStep_memory (s : Sim) (i : Nat) :
    (execLSBStep s i).memory = s.memory := by
  simp only [execLSBStep]
  repeat' split
  all_goals rfl

theorem executeStage_register_file (s : Sim) :
    (executeStage s).register_file = s.register_file := by
  unfold executeStage
  rw [foldl_proj_eq (fun s => s.register_file) execLSBStep execLSBStep_register_file]
  rw [foldl_proj_eq (fun s => s.register_file) execRSStep execRSStep_register_file]

theorem executeStage_memory (s : Sim) :
    (executeStage s).memory = s.memory := by
  unfold executeStage
  rw [foldl_proj_eq (fun s => s.memory) execLSBStep execLSBStep_memory]
  rw [foldl_proj_eq (fun s => s.memory) execRSStep execRSStep_memory]

theorem updProgram_register_file (s : Sim) (i : Nat) (f : Instruction → Instruction) :
    (updProgram s i f).register_file = s.register_file := rfl

theorem updProgram_memory (s : Sim) (i : Nat) (f : Instruction → Instruction) :
    (updProgram s i f).memory = s.memory := rfl

theorem issueFillROB_register_file (s : Sim) (instr : Instruction) (k : Nat) :
    (issueFillROB s instr k).register_file = s.register_file := rfl

theorem issueFillROB_memory (s : Sim) (instr : Instruction) (k : Nat) :
    (issueFillROB s instr k).memory = s.memory := rfl

theorem issueFooter_register_file (s : Sim) :
    (issueFooter s).register_file = s.register_file := rfl

theorem issueFooter_memory (s : Sim) : (issueFooter s).memory = s.memory := rfl

theorem issueSpeculation_register_file (s : Sim) (idx : Nat) (instr : Instruction) (k : Nat) :
    (issueSpeculation s idx instr k).register_file = s.register_file := by
  simp only [issueSpeculation, updProgram]
  repeat' split
  all_goals rfl

theorem issueSpeculation_memory (s : Sim) (idx : Nat) (instr : Instruction) (k : Nat) :
    (issueSpeculation s idx instr k).memory = s.memory := by
  simp only [issueSpeculation, updProgram]
  repeat' split
  all_goals rfl

theorem issueLoadStore_register_file (s : Sim) (idx : Nat) (instr : Instruction) (k m : Nat) :
    (issueLoadStore s idx instr k m).register_file = s.register_file := by
  simp only [issueLoadStore, updProgram]
  repeat' split
  all_goals rfl

theorem issueLoadStore_memory (s : Sim) (idx : Nat) (instr : Instruction) (k m : Nat) :
    (issueLoadStore s idx instr k m).memory = s.memory := by
  simp only [issueLoadStore, updProgram]
  repeat' split
  all_goals rfl

theorem issueBranch_register_file (s : Sim) (idx : Nat) (instr : Instruction) (k m : Nat) :
    (issueBranch s idx instr k m).register_file = s.register_file := by
  simp only [issueBranch, rsCaptureOperands, updProgram]

theorem issueBranch_memory (s : Sim) (idx : Nat) (instr : Instruction) (k m : Nat) :
    (issueBranch s idx instr k m).memory = s.memory := by
  simp only [issueBranch, rsCaptureOperands, updProgram]

theorem issueArith_register_file (s : Sim) (idx : Nat) (instr : Instruction) (k m : Nat) :
    (issueArith s idx instr k m).register_file = s.register_file := by
  simp only [issueArith, rsCaptureOperands, updProgram]
  repeat' split
  all_goals rfl

theorem issueArith_memory (s : Sim) (idx : Nat) (instr : Instruction) (k m : Nat) :
    (issueArith s idx instr k m).memory = s.memory := by
  simp only [issueArith, rsCaptureOperands, updProgram]
  repeat' split
  all_goals rfl

theorem issueOne_register_file (s : Sim) (instrIdx : Nat) (instr : Instruction)
    (free_rob_idx : Nat) (free_lsb free_rs : Option Nat) :
    (issueOne s instrIdx instr free_rob_idx free_lsb free_rs).register_file = s.register_file := by
  simp only [issueOne]
  split
  case isTrue =>
    rw [issueFooter_register_file, issueLoadStore_register_file,
      issueSpeculation_register_file, issueFillROB_register_file]
  case isFalse =>
    split
    case isTrue =>
      rw [issueFooter_register_file, issueBranch_register_file,
        issueSpeculation_register_file, issueFillROB_register_file]
    case isFalse =>
      rw [issueFooter_register_file, issueArith_register_file,
        issueSpeculation_register_file, issueFillROB_register_file]

theorem issueOne_memory (s : Sim) (instrIdx : Nat) (instr : Instruction)
    (free_rob_idx : Nat) (free_lsb free_rs : Option Nat) :
    (issueOne s instrIdx instr free_rob_idx free_lsb free_rs).memory = s.memory := by
  simp only [issueOne]
  split
  case isTrue =>
    rw [issueFooter_memory, issueLoadStore_memory, issueSpeculation_memory, issueFillROB_memory]
  case isFalse =>
    split
    case isTrue =>
      rw [issueFooter_memory, issueBranch_memory, issueSpeculation_memory, issueFillROB_memory]
    case isFalse =>
      rw [issueFooter_memory, issueArith_memory, issueSpeculation_memory, issueFillROB_memory]

theorem issueLoop_register_file :
    ∀ (n : Nat) (s : Sim) (issued : Nat),
      (issueLoop s issued n).1.register_file = s.register_file
  | 0, _, _ => rfl
  | n+1, s, issued => by
    simp only [issueLoop]
    repeat' split
    all_goals first
    | rfl
    | (exact issueLoop_register_file n _ _)
    | (exact (issueLoop_register_file n _ _).trans (issueOne_register_file ..))

theorem issueLoop_memory :
    ∀ (n : Nat) (s : Sim) (issued : Nat),
      (issueLoop s issued n).1.memory = s.memory
  | 0, _, _ => rfl
  | n+1, s, issued => by
    simp only [issueLoop]
    repeat' split
    all_goals first
    | rfl
    | (exact issueLoop_memory n _ _)
    | (exact (issueLoop_memory n _ _).trans (issueOne_memory ..))

-- `getD` after `set` and after `map`, used for pointwise tracking of
-- station fields under the index-fold embeddings of in-place mutation.

theorem getD_set {α : Type} [Inhabited α] (l : List α) (i k : Nat) (a : α) :
    (l.set i a).getD k default =
      if i = k ∧ i < l.length then a else l.getD k default := by
  simp only [List.getD_eq_getElem?_getD, List.getElem?_set]
  by_cases h : i = k
  · subst h
    by_cases hl : i < l.length
    · simp [hl]
    · simp [hl, List.getElem?_eq_none (Nat.not_lt.mp hl)]
  · simp [h]

theorem getD_map_lsb_addr_eq (f : LSBEntry → LSBEntry)
    (hf : ∀ x, (f x).address = x.address) (l : List LSBEntry) (k : Nat) :
    ((l.map f).getD k default).address = (l.getD k default).address := by
  simp only [List.getD_eq_getElem?_getD, List.getElem?_map]
  cases h : l[k]? <;> simp [hf]

theorem getD_map_lsb_addr_none (f : LSBEntry → LSBEntry)
    (hf : ∀ x, (f x).address = x.address ∨ (f x).address = none)
    (l : List LSBEntry) (k : Nat) (h : (l.getD k default).address = none) :
    ((l.map f).getD k default).address = none := by
  simp only [List.getD_eq_getElem?_getD, List.getElem?_map] at h ⊢
  cases hk : l[k]? with
  | none => rfl
  | some x =>
    rw [hk] at h
    have hx : x.address = none := h
    rcases hf x with h' | h'
    · show (f x).address = none
      rw [h']
      exact hx
    · exact h'

-- The Load/Store Buffer never has an unset effective address filled in by
-- any stage other than Issue (there is no address-tag capture mechanism).

theorem commitOne_lsb (s : Sim) (ent : ROBEntry) : (commitOne s ent).lsb = s.lsb := by
  simp only [commitOne]
  repeat' split
  all_goals rfl

theorem commitLoop_lsb : ∀ (l : List ROBEntry) (s : Sim), (commitLoop s l).1.lsb = s.lsb
  | [], _ => rfl
  | e :: rest, s => by
    simp only [commitLoop]
    split
    · exact (commitLoop_lsb rest _).trans (commitOne_lsb s e)
    · rfl

theorem commitStage_lsb (s : Sim) : (commitStage s).lsb = s.lsb :=
  commitLoop_lsb _ s

theorem wrRSStep_lsb (acc : Sim × List CDBResult) (i : Nat) :
    (wrRSStep acc i).1.lsb = acc.1.lsb := by
  simp only [wrRSStep, markWBAll]
  repeat' split
  all_goals rfl

theorem wrLSBStep_addr_none (acc : Sim × List CDBResult) (i k : Nat)
    (h : ((acc.1.lsb.getD k default).address = none)) :
    ((wrLSBStep acc i).1.lsb.getD k default).address = none := by
  simp only [wrLSBStep, markWBAll]
  repeat' split
  all_goals first
  | exact h
  | (rw [getD_set]; split; · rfl
     · exact h)

theorem applyResult_addr_eq (s : Sim) (res : CDBResult) (k : Nat) :
    ((applyResult s res).lsb.getD k default).address = ((s.lsb.getD k default)).address := by
  simp only [applyResult]
  split
  all_goals
    refine getD_map_lsb_addr_eq _ (fun x => ?_) _ _
  all_goals
    dsimp only
  all_goals split
  all_goals rfl

theorem writeResultStage_addr_none (s : Sim) (k : Nat)
    (h : (s.lsb.getD k default).address = none) :
    ((writeResultStage s).lsb.getD k default).address = none := by
  simp only [writeResultStage]
  refine foldl_preserves
    (fun st : Sim => (st.lsb.getD k default).address = none) applyResult
    (fun st res hst => (applyResult_addr_eq st res k).trans hst) _ _ ?_
  refine foldl_preserves
    (fun acc : Sim × List CDBResult => ((acc.1.lsb.getD k default)).address = none) wrLSBStep
    (fun acc i hi => wrLSBStep_addr_none acc i k hi) _ _ ?_
  have hrs : ∀ (l : List Nat) (acc : Sim × List CDBResult),
      (List.foldl wrRSStep acc l).1.lsb = acc.1.lsb :=
    fun l acc => foldl_proj_eq (fun a : Sim × List CDBResult => a.1.lsb) wrRSStep wrRSStep_lsb l acc
  show ((List.foldl wrRSStep (s, []) (List.range s.rs.length)).1.lsb.getD k default).address = none
  rw [hrs]
  exact h

theorem execRSStep_lsb (s : Sim) (i : Nat) : (execRSStep s i).lsb = s.lsb := by
  simp only [execRSStep]
  repeat' split
  all_goals rfl

theorem execLSBStep_addr_eq (s : Sim) (i k : Nat) :
    ((execLSBStep s i).lsb.getD k default).address = (s.lsb.getD k default).address := by
  simp only [execLSBStep]
  split
  · rw [getD_set]
    split
    · rename_i hc
      rw [← hc.1]
    · rfl
  · rfl

theorem executeStage_addr_eq (s : Sim) (k : Nat) :
    ((executeStage s).lsb.getD k default).address = (s.lsb.getD k default).address := by
  simp only [executeStage]
  have h1 : ∀ (l : List Nat) (st : Sim),
      ((List.foldl execLSBStep st l).lsb.getD k default).address = (st.lsb.getD k default).address :=
    fun l st => foldl_proj_eq (fun st : Sim => ((st.lsb.getD k default)).address)
      execLSBStep (fun st i => execLSBStep_addr_eq st i k) l st
  have h2 : ∀ (l : List Nat) (st : Sim), (List.foldl execRSStep st l).lsb = st.lsb :=
    fun l st => foldl_proj_eq (fun st : Sim => st.lsb) execRSStep execRSStep_lsb l st
  rw [h1, h2]

theorem flushStep_addr_none (ent : ROBEntry) (s : Sim) (j k : Nat)
    (h : (s.lsb.getD k default).address = none) :
    ((flushStep ent s j).lsb.getD k default).address = none := by
  simp only [flushStep]
  split
  · refine getD_map_lsb_addr_none _ (fun x => ?_) _ _ h
    dsimp only
    split
    · exact Or.inr rfl
    · exact Or.inl rfl
  · exact h

theorem resolveOne_addr_none (s : Sim) (i k : Nat)
    (h : (s.lsb.getD k default).address = none) :
    ((resolveOne s i).lsb.getD k default).address = none := by
  simp only [resolveOne, deleteCheckpoint]
  repeat' split
  all_goals first
  | exact h
  | exact foldl_preserves (fun st : Sim => (st.lsb.getD k default).address = none)
      _ (fun st j hj => flushStep_addr_none _ st j k hj) _ _ h

theorem resolveBranches_addr_none (s : Sim) (k : Nat)
    (h : (s.lsb.getD k default).address = none) :
    ((resolveBranches s).lsb.getD k default).address = none :=
  foldl_preserves (fun st : Sim => (st.lsb.getD k default).address = none)
    resolveOne (fun st i hi => resolveOne_addr_none st i k hi) _ s h

theorem beqCheckStep_register_file (s : Sim) (i : Nat) :
    (beqCheckStep s i).register_file = s.register_file := by
  simp only [beqCheckStep]
  repeat' split
  all_goals rfl

theorem beqCheckStep_memory (s : Sim) (i : Nat) :
    (beqCheckStep s i).memory = s.memory := by
  simp only [beqCheckStep]
  repeat' split
  all_goals rfl

/-- Claim C7: only the Commit stage mutates architectural state.
Write-Result, the BEQ readiness scan, branch resolution, Execute and Issue
all leave every architectural register value and every memory location
unchanged (stores write memory only at commit). -/
theorem C7_only_commit_mutates_architectural_state (s : Sim) :
    (writeResultStage s).register_file = s.register_file ∧
    (writeResultStage s).memory = s.memory ∧
    ((List.range s.rs.length).foldl beqCheckStep s).register_file = s.register_file ∧
    ((List.range s.rs.length).foldl beqCheckStep s).memory = s.memory ∧
    (resolveBranches s).register_file = s.register_file ∧
    (resolveBranches s).memory = s.memory ∧
    (executeStage s).register_file = s.register_file ∧
    (executeStage s).memory = s.memory ∧
    (issueStage s).1.register_file = s.register_file ∧
    (issueStage s).1.memory = s.memory :=
  ⟨writeResultStage_register_file s, writeResultStage_memory s,
    foldl_proj_eq (fun st : Sim => st.register_file) beqCheckStep
      beqCheckStep_register_file _ s,
    foldl_proj_eq (fun st : Sim => st.memory) beqCheckStep beqCheckStep_memory _ s,
    resolveBranches_register_file s, resolveBranches_memory s,
    executeStage_register_file s, executeStage_memory s,
    issueLoop_register_file s.issue_width s 0, issueLoop_memory s.issue_width s 0⟩

set_option maxRecDepth 200000 in
/-- Claim C10: an LW/SW issued while its base register is renamed gets an
unset (`None`) effective address, and no later stage ever fills it in
(first conjunct: Commit, Write-Result, Execute and branch resolution all
preserve an unset LSB address — there is no address-tag capture).  On
`ADD R1,..; SW R4,0(R1); LW R5,0(R1)` both memory ops issue under the
rename: their addresses stay `None` through their whole occupancy, the SW
writes back the pair `(None, value)` recorded against the unset address,
and the LW broadcasts the default value 0. -/
theorem C10_renamed_base_address_never_resolves :
    (∀ (s : Sim) (k : Nat), (s.lsb.getD k default).address = none →
        ((commitStage s).lsb.getD k default).address = none ∧
        ((writeResultStage s).lsb.getD k default).address = none ∧
        ((executeStage s).lsb.getD k default).address = none ∧
        ((resolveBranches s).lsb.getD k default).address = none) ∧
    ((stepN (initSim progLsbRenamed) 1).RAT "R1" = some 0 ∧
     ((stepN (initSim progLsbRenamed) 2).lsb.getD 0 default).busy = true ∧
     ((stepN (initSim progLsbRenamed) 2).lsb.getD 0 default).op = some "SW" ∧
     ((stepN (initSim progLsbRenamed) 2).lsb.getD 0 default).address = none ∧
     ((stepN (initSim progLsbRenamed) 3).lsb.getD 1 default).op = some "LW" ∧
     ((stepN (initSim progLsbRenamed) 3).lsb.getD 1 default).address = none ∧
     ((stepN (initSim progLsbRenamed) 5).lsb.getD 0 default).busy = true ∧
     ((stepN (initSim progLsbRenamed) 5).lsb.getD 0 default).address = none ∧
     ((stepN (initSim progLsbRenamed) 6).rob.getD 1 default).value =
        some (RobValue.pairVal none 0) ∧
     ((stepN (initSim progLsbRenamed) 7).rob.getD 2 default).value =
        some (RobValue.intVal 0)) := by
  constructor
  · intro s k h
    refine ⟨?_, writeResultStage_addr_none s k h, (executeStage_addr_eq s k).trans h,
      resolveBranches_addr_none s k h⟩
    exact (congrArg (fun l => (l.getD k default).address) (commitStage_lsb s)).trans h
  · decide

set_option maxRecDepth 100000 in
/-- Witness for the universally quantified conjunct of the C10 theorem,
applied to a reachable state with an unset SW address. -/
theorem C10_renamed_base_address_never_resolves_witness :
    ((commitStage (stepN (initSim progLsbRenamed) 2)).lsb.getD 0 default).address = none :=
  (C10_renamed_base_address_never_resolves.1 (stepN (initSim progLsbRenamed) 2) 0
    (by decide)).1

set_option maxRecDepth 100000 in
/-- Claim C1: the spec requires Execute not to decrement the remaining
cycles of a busy station whose operand tag is still pending.  The code
decrements unconditionally: on `MUL R1,R2,R3; ADD R4,R1,R5`, after cycle 2
the ADD's station (slot 1) is busy with `Qj = 0` (the MUL's ROB id) pending
and 2 remaining cycles; cycle 3's Execute still decrements it to 1 with the
tag untouched. -/
theorem C1_execute_decrements_with_pending_tag :
    (((stepN (initSim progTagRace) 2).rs.getD 1 default).busy = true ∧
     ((stepN (initSim progTagRace) 2).rs.getD 1 default).Qj = some 0 ∧
     ((stepN (initSim progTagRace) 2).rs.getD 1 default).exec_cycles_left = 2) ∧
    (((stepN (initSim progTagRace) 3).rs.getD 1 default).busy = true ∧
     ((stepN (initSim progTagRace) 3).rs.getD 1 default).Qj = some 0 ∧
     ((stepN (initSim progTagRace) 3).rs.getD 1 default).exec_cycles_left = 1) := by
  decide

set_option maxRecDepth 200000 in
/-- Claim C2: the spec's write-back eligibility requires null operand tags.
In the same run, after cycle 4 the ADD's station is busy with remaining
cycles 0 but `Qj = 0` still pending (the MUL has not broadcast: its ROB
entry is not ready); cycle 5's Write-Result nevertheless retires the
station and marks its ROB entry ready with the would-be value computed from
a defaulted operand. -/
theorem C2_writeback_fires_with_pending_tag :
    (((stepN (initSim progTagRace) 4).rs.getD 1 default).busy = true ∧
     ((stepN (initSim progTagRace) 4).rs.getD 1 default).exec_cycles_left = 0 ∧
     ((stepN (initSim progTagRace) 4).rs.getD 1 default).Qj = some 0 ∧
     ((stepN (initSim progTagRace) 4).rob.getD 0 default).ready = false) ∧
    (((stepN (initSim progTagRace) 5).rob.getD 1 default).ready = true ∧
     ((stepN (initSim progTagRace) 5).rob.getD 1 default).value = some (RobValue.intVal 0) ∧
     ((stepN (initSim progTagRace) 5).rs.getD 1 default).busy = false) := by
  decide

set_option maxRecDepth 50000 in
/-- Claim C4: the latency table declares SW = 2, but the dispatch code
loads `latencies.get("LW", 3)` for both LW and SW: an issued SW starts with
3 remaining cycles. -/
theorem C4_sw_issued_with_lw_latency :
    latencies "SW" = some 2 ∧
    ((stepN (initSim progSWLat) 1).lsb.getD 0 default).busy = true ∧
    ((stepN (initSim progSWLat) 1).lsb.getD 0 default).op = some "SW" ∧
    ((stepN (initSim progSWLat) 1).lsb.getD 0 default).exec_cycles_left = 3 := by
  decide

set_option maxRecDepth 200000 in
/-- Claim C5: after `ADD R1,..; MUL R4,..; BEQ R4,R0,0; ADD R7,..` the ADD
commits (cycle 5, clearing its RAT tag) in the same cycle the BEQ
mispredicts; the checkpoint restore then reinstates the stale tag
`RAT[R1] = 0` although ROB slot 0 is no longer busy — the claimed invariant
fails in a reachable state. -/
theorem C5_restored_rat_tag_points_at_free_slot :
    (stepN (initSim progRatRestore) 5).branch_mispredictions = 1 ∧
    (stepN (initSim progRatRestore) 5).RAT "R1" = some 0 ∧
    ((stepN (initSim progRatRestore) 5).rob.getD 0 default).busy = false := by
  decide

set_option maxRecDepth 50000 in
/-- Claim C9 (counterexample): `TomasuloSim.reset` is `self.__init__()`;
after loading a one-instruction program and stepping once, reset leaves an
empty program — not the just-after-load state. -/
theorem C9_reset_discards_program :
    (initSim progAddOne).program ≠ [] ∧
    (reset (step (initSim progAddOne))).program = [] := by
  decide

/-- Claim C9 (amended): `reset()` restores the freshly-constructed state —
empty program, cycle 0, zeroed counters, empty ROB/RS/LSB/RAT/registers/
memory — discarding the loaded program (the GUI layer re-parses the text
box on its own reset). -/
theorem C9_amended_reset_restores_fresh_state : ∀ s : Sim, reset s = freshSim :=
  fun _ => rfl

end Tomasulo

namespace Tomasulo

end Tomasulo

namespace Tomasulo

-- Pointwise behaviour of the misprediction flush loop (claim C3).

theorem getD_map_cases {α : Type} [Inhabited α] (f : α → α) (l : List α) (k : Nat) :
    (l.map f).getD k default = f (l.getD k default) ∨ (l.map f).getD k default = default := by
  simp only [List.getD_eq_getElem?_getD, List.getElem?_map]
  cases h : l[k]? with
  | none => right; rfl
  | some x => left; rfl

theorem getD_map_keep_dead {α : Type} [Inhabited α] (busyF : α → Bool) (f : α → α)
    (hf : ∀ x, f x = x ∨ busyF (f x) = false) (hd : busyF default = false)
    (l : List α) (k : Nat) (h : busyF (l.getD k default) = false) :
    busyF ((l.map f).getD k default) = false := by
  rcases getD_map_cases f l k with hc | hc
  · rw [hc]
    rcases hf (l.getD k default) with h' | h'
    · rw [h']
      exact h
    · exact h'
  · rw [hc]
    exact hd

theorem getD_map_orig_or_dead {α : Type} [Inhabited α] (busyF : α → Bool) (f : α → α)
    (hf : ∀ x, f x = x ∨ busyF (f x) = false) (hd : busyF default = false)
    (l : List α) (k : Nat) (v : α)
    (h : l.getD k default = v ∨ busyF (l.getD k default) = false) :
    (l.map f).getD k default = v ∨ busyF ((l.map f).getD k default) = false := by
  rcases getD_map_cases f l k with hc | hc
  · rcases h with h | h
    · rcases hf (l.getD k default) with h' | h'
      · left
        rw [hc, h', h]
      · right
        rw [hc]
        exact h'
    · right
      rw [hc]
      rcases hf (l.getD k default) with h' | h'
      · rw [h']
        exact h
      · exact h'
  · right
    rw [hc]
    exact hd

theorem getD_map_fires {α : Type} [Inhabited α] (busyF : α → Bool) (f : α → α)
    (P : α → Prop) (hfire : ∀ x, P x → busyF (f x) = false) (hd : busyF default = false)
    (l : List α) (k : Nat) (h : P (l.getD k default)) :
    busyF ((l.map f).getD k default) = false := by
  rcases getD_map_cases f l k with hc | hc
  · rw [hc]
    exact hfire _ h
  · rw [hc]
    exact hd

theorem flushStep_checkpoints (ent : ROBEntry) (st : Sim) (j : Nat) :
    (flushStep ent st j).checkpoints = st.checkpoints := by
  simp only [flushStep]
  split
  all_goals rfl

theorem flushStep_program (ent : ROBEntry) (st : Sim) (j : Nat) :
    (flushStep ent st j).program = st.program := by
  simp only [flushStep]
  split
  all_goals rfl

theorem flushStep_rob_length (ent : ROBEntry) (st : Sim) (j : Nat) :
    (flushStep ent st j).rob.length = st.rob.length := by
  simp only [flushStep]
  split
  · simp only [List.length_set]
  · rfl

theorem flushStep_rob_getD_ne (ent : ROBEntry) (st : Sim) (j j' : Nat) (h : j ≠ j') :
    (flushStep ent st j).rob.getD j' default = st.rob.getD j' default := by
  simp only [flushStep]
  split
  · simp only [getD_set]
    simp [h]
  · rfl

theorem flushStep_rob_self (ent : ROBEntry) (st : Sim) (j : Nat)
    (hb : (st.rob.getD j default).busy = true)
    (hs : (st.rob.getD j default).speculative = true)
    (hne : st.rob.getD j default ≠ ent)
    (hlt : j < st.rob.length) :
    ((flushStep ent st j).rob.getD j default).busy = false := by
  simp only [flushStep]
  rw [if_pos ⟨hb, hs, hne⟩]
  simp only [getD_set]
  simp [hlt, clearROBFlush]

theorem flushStep_keeps_ent (ent : ROBEntry) (st : Sim) (j i : Nat)
    (h : st.rob.getD i default = ent) :
    (flushStep ent st j).rob.getD i default = ent := by
  by_cases hji : j = i
  · subst hji
    simp only [flushStep]
    split
    · rename_i hg
      exact absurd h hg.2.2
    · exact h
  · rw [flushStep_rob_getD_ne ent st j i hji]
    exact h

theorem flushStep_rob_not_busy_pres (ent : ROBEntry) (st : Sim) (j j' : Nat)
    (h : (st.rob.getD j' default).busy = false) :
    ((flushStep ent st j).rob.getD j' default).busy = false := by
  by_cases hji : j = j'
  · subst hji
    simp only [flushStep]
    split
    · rename_i hg
      rw [h] at hg
      simp at hg
    · exact h
  · rw [flushStep_rob_getD_ne ent st j j' hji]
    exact h

theorem flushStep_rs_not_busy_pres (ent : ROBEntry) (st : Sim) (j k : Nat)
    (h : (st.rs.getD k default).busy = false) :
    ((flushStep ent st j).rs.getD k default).busy = false := by
  simp only [flushStep]
  split
  · exact getD_map_keep_dead (fun r => r.busy)
      (fun r => if r.busy ∧ r.rob_id = some ((st.rob.getD j default).id) then clearRS r else r)
      (fun x : ReservationStation => by
        dsimp only
        split
        · right
          rfl
        · left
          rfl)
      rfl st.rs k h
  · exact h

theorem flushStep_lsb_not_busy_pres (ent : ROBEntry) (st : Sim) (j k : Nat)
    (h : (st.lsb.getD k default).busy = false) :
    ((flushStep ent st j).lsb.getD k default).busy = false := by
  simp only [flushStep]
  split
  · exact getD_map_keep_dead (fun l => l.busy)
      (fun l => if l.busy ∧ l.rob_id = some ((st.rob.getD j default).id) then clearLSBFlush l else l)
      (fun x : LSBEntry => by
        dsimp only
        split
        · right
          rfl
        · left
          rfl)
      rfl st.lsb k h
  · exact h

theorem flushStep_rs_clear (ent : ROBEntry) (st : Sim) (j k : Nat)
    (hg : (st.rob.getD j default).busy = true ∧ (st.rob.getD j default).speculative = true ∧
      st.rob.getD j default ≠ ent)
    (hb : (st.rs.getD k default).busy = true)
    (hp : (st.rs.getD k default).rob_id = some ((st.rob.getD j default).id)) :
    ((flushStep ent st j).rs.getD k default).busy = false := by
  simp only [flushStep]
  rw [if_pos hg]
  exact getD_map_fires (fun r => r.busy)
    (fun r => if r.busy ∧ r.rob_id = some ((st.rob.getD j default).id) then clearRS r else r)
    (fun r => r.busy = true ∧ r.rob_id = some ((st.rob.getD j default).id))
    (fun x hx => by
      dsimp only
      rw [if_pos hx]
      rfl)
    rfl st.rs k ⟨hb, hp⟩

theorem flushStep_lsb_clear (ent : ROBEntry) (st : Sim) (j k : Nat)
    (hg : (st.rob.getD j default).busy = true ∧ (st.rob.getD j default).speculative = true ∧
      st.rob.getD j default ≠ ent)
    (hb : (st.lsb.getD k default).busy = true)
    (hp : (st.lsb.getD k default).rob_id = some ((st.rob.getD j default).id)) :
    ((flushStep ent st j).lsb.getD k default).busy = false := by
  simp only [flushStep]
  rw [if_pos hg]
  exact getD_map_fires (fun l => l.busy)
    (fun l => if l.busy ∧ l.rob_id = some ((st.rob.getD j default).id) then clearLSBFlush l else l)
    (fun l => l.busy = true ∧ l.rob_id = some ((st.rob.getD j default).id))
    (fun x hx => by
      dsimp only
      rw [if_pos hx]
      rfl)
    rfl st.lsb k ⟨hb, hp⟩

theorem flushStep_rob_orig_or_dead (ent : ROBEntry) (st : Sim) (j j' : Nat) (v : ROBEntry)
    (h : st.rob.getD j' default = v ∨ (st.rob.getD j' default).busy = false) :
    (flushStep ent st j).rob.getD j' default = v ∨
      ((flushStep ent st j).rob.getD j' default).busy = false := by
  by_cases hji : j = j'
  · subst hji
    simp only [flushStep]
    split
    · simp only [getD_set]
      split
      · right
        rfl
      · exact h
    · exact h
  · rw [flushStep_rob_getD_ne ent st j j' hji]
    exact h

theorem flushStep_rs_orig_or_dead (ent : ROBEntry) (st : Sim) (j k : Nat)
    (v : ReservationStation)
    (h : st.rs.getD k default = v ∨ (st.rs.getD k default).busy = false) :
    (flushStep ent st j).rs.getD k default = v ∨
      ((flushStep ent st j).rs.getD k default).busy = false := by
  simp only [flushStep]
  split
  · exact getD_map_orig_or_dead (fun r => r.busy)
      (fun r => if r.busy ∧ r.rob_id = some ((st.rob.getD j default).id) then clearRS r else r)
      (fun x : ReservationStation => by
        dsimp only
        split
        · right
          rfl
        · left
          rfl)
      rfl st.rs k v h
  · exact h

theorem flushStep_lsb_orig_or_dead (ent : ROBEntry) (st : Sim) (j k : Nat)
    (v : LSBEntry)
    (h : st.lsb.getD k default = v ∨ (st.lsb.getD k default).busy = false) :
    (flushStep ent st j).lsb.getD k default = v ∨
      ((flushStep ent st j).lsb.getD k default).busy = false := by
  simp only [flushStep]
  split
  · exact getD_map_orig_or_dead (fun l => l.busy)
      (fun l => if l.busy ∧ l.rob_id = some ((st.rob.getD j default).id) then clearLSBFlush l else l)
      (fun x : LSBEntry => by
        dsimp only
        split
        · right
          rfl
        · left
          rfl)
      rfl st.lsb k v h
  · exact h

end Tomasulo

namespace Tomasulo

theorem flushFold_checkpoints (ent : ROBEntry) (L : List Nat) (st : Sim) :
    (List.foldl (flushStep ent) st L).checkpoints = st.checkpoints :=
  foldl_proj_eq (fun s : Sim => s.checkpoints) (flushStep ent) (flushStep_checkpoints ent) L st

theorem flushFold_program (ent : ROBEntry) (L : List Nat) (st : Sim) :
    (List.foldl (flushStep ent) st L).program = st.program :=
  foldl_proj_eq (fun s : Sim => s.program) (flushStep ent) (flushStep_program ent) L st

theorem flushFold_keeps_ent (ent : ROBEntry) (L : List Nat) (st : Sim) (i : Nat)
    (h : st.rob.getD i default = ent) :
    (List.foldl (flushStep ent) st L).rob.getD i default = ent :=
  foldl_preserves (fun s : Sim => s.rob.getD i default = ent) (flushStep ent)
    (fun s j hs => flushStep_keeps_ent ent s j i hs) L st h

theorem flushFold_rob_not_busy (ent : ROBEntry) (L : List Nat) (st : Sim) (j' : Nat)
    (h : (st.rob.getD j' default).busy = false) :
    ((List.foldl (flushStep ent) st L).rob.getD j' default).busy = false :=
  foldl_preserves (fun s : Sim => (s.rob.getD j' default).busy = false) (flushStep ent)
    (fun s j hs => flushStep_rob_not_busy_pres ent s j j' hs) L st h

theorem flushFold_rs_not_busy (ent : ROBEntry) (L : List Nat) (st : Sim) (k : Nat)
    (h : (st.rs.getD k default).busy = false) :
    ((List.foldl (flushStep ent) st L).rs.getD k default).busy = false :=
  foldl_preserves (fun s : Sim => (s.rs.getD k default).busy = false) (flushStep ent)
    (fun s j hs => flushStep_rs_not_busy_pres ent s j k hs) L st h

theorem flushFold_lsb_not_busy (ent : ROBEntry) (L : List Nat) (st : Sim) (k : Nat)
    (h : (st.lsb.getD k default).busy = false) :
    ((List.foldl (flushStep ent) st L).lsb.getD k default).busy = false :=
  foldl_preserves (fun s : Sim => (s.lsb.getD k default).busy = false) (flushStep ent)
    (fun s j hs => flushStep_lsb_not_busy_pres ent s j k hs) L st h

theorem flushFold_rob_orig_or_dead (ent : ROBEntry) (L : List Nat) (st : Sim) (j' : Nat)
    (v : ROBEntry)
    (h : st.rob.getD j' default = v ∨ (st.rob.getD j' default).busy = false) :
    (List.foldl (flushStep ent) st L).rob.getD j' default = v ∨
      ((List.foldl (flushStep ent) st L).rob.getD j' default).busy = false :=
  foldl_preserves
    (fun s : Sim => s.rob.getD j' default = v ∨ (s.rob.getD j' default).busy = false)
    (flushStep ent) (fun s j hs => flushStep_rob_orig_or_dead ent s j j' v hs) L st h

/-- The misprediction flush frees every targeted speculative ROB entry and
every station owned by it: the central content of claim C3(a). -/
theorem flushFold_frees (ent : ROBEntry) (s0 : Sim) :
    ∀ (L : List Nat) (st : Sim),
      L.Nodup →
      st.rob.length = s0.rob.length →
      (∀ j', j' ∈ L → st.rob.getD j' default = s0.rob.getD j' default) →
      (∀ k, st.rs.getD k default = s0.rs.getD k default ∨ (st.rs.getD k default).busy = false) →
      (∀ k, st.lsb.getD k default = s0.lsb.getD k default ∨ (st.lsb.getD k default).busy = false) →
      ∀ j, j ∈ L → j < s0.rob.length →
        (s0.rob.getD j default).busy = true →
        (s0.rob.getD j default).speculative = true →
        s0.rob.getD j default ≠ ent →
        ((List.foldl (flushStep ent) st L).rob.getD j default).busy = false ∧
        (∀ k, (s0.rs.getD k default).busy = true →
          (s0.rs.getD k default).rob_id = some ((s0.rob.getD j default).id) →
          ((List.foldl (flushStep ent) st L).rs.getD k default).busy = false) ∧
        (∀ k, (s0.lsb.getD k default).busy = true →
          (s0.lsb.getD k default).rob_id = some ((s0.rob.getD j default).id) →
          ((List.foldl (flushStep ent) st L).lsb.getD k default).busy = false)
  | [], _, _, _, _, _, _, j, hj, _, _, _, _ => absurd hj (List.not_mem_nil j)
  | a :: L', st, hnd, hlen, horig, hrs, hlsb, j, hj, hjlt, hb0, hs0, hne0 => by
    have hnd' : L'.Nodup := (List.nodup_cons.mp hnd).2
    have hna : a ∉ L' := (List.nodup_cons.mp hnd).1
    have hlen' : (flushStep ent st a).rob.length = s0.rob.length :=
      (flushStep_rob_length ent st a).trans hlen
    have hrs' : ∀ k, (flushStep ent st a).rs.getD k default = s0.rs.getD k default ∨
        ((flushStep ent st a).rs.getD k default).busy = false :=
      fun k => flushStep_rs_orig_or_dead ent st a k _ (hrs k)
    have hlsb' : ∀ k, (flushStep ent st a).lsb.getD k default = s0.lsb.getD k default ∨
        ((flushStep ent st a).lsb.getD k default).busy = false :=
      fun k => flushStep_lsb_orig_or_dead ent st a k _ (hlsb k)
    have horig' : ∀ j', j' ∈ L' →
        (flushStep ent st a).rob.getD j' default = s0.rob.getD j' default := by
      intro j' hj'
      have hne : a ≠ j' := fun he => hna (he ▸ hj')
      rw [flushStep_rob_getD_ne ent st a j' hne]
      exact horig j' (List.mem_cons_of_mem a hj')
    simp only [List.foldl_cons]
    rcases List.mem_cons.mp hj with hja | hjL
    · -- this iteration frees entry j and its stations
      subst hja
      have horigj : st.rob.getD j default = s0.rob.getD j default :=
        horig j (List.mem_cons_self ..)
      have hg : (st.rob.getD j default).busy = true ∧
          (st.rob.getD j default).speculative = true ∧ st.rob.getD j default ≠ ent := by
        rw [horigj]
        exact ⟨hb0, hs0, hne0⟩
      refine ⟨?_, ?_, ?_⟩
      · exact flushFold_rob_not_busy ent L' _ j
          (flushStep_rob_self ent st j hg.1 hg.2.1 hg.2.2 (hlen ▸ hjlt))
      · intro k hkb hkp
        refine flushFold_rs_not_busy ent L' _ k ?_
        rcases hrs k with hk | hk
        · refine flushStep_rs_clear ent st j k hg ?_ ?_
          · rw [hk]; exact hkb
          · rw [hk, horigj]; exact hkp
        · exact flushStep_rs_not_busy_pres ent st j k hk
      · intro k hkb hkp
        refine flushFold_lsb_not_busy ent L' _ k ?_
        rcases hlsb k with hk | hk
        · refine flushStep_lsb_clear ent st j k hg ?_ ?_
          · rw [hk]; exact hkb
          · rw [hk, horigj]; exact hkp
        · exact flushStep_lsb_not_busy_pres ent st j k hk
    · exact flushFold_frees ent s0 L' (flushStep ent st a) hnd' hlen' horig' hrs' hlsb'
        j hjL hjlt hb0 hs0 hne0

end Tomasulo

namespace Tomasulo

theorem resolveOne_id (s : Sim) (j : Nat)
    (h : ¬((s.rob.getD j default).busy = true ∧
      (s.rob.getD j default).type = some "BRANCH" ∧
      (s.rob.getD j default).ready = true)) :
    resolveOne s j = s := by
  simp only [resolveOne]
  rw [if_neg h]

theorem resolveFold_id :
    ∀ (L : List Nat) (s : Sim),
      (∀ j ∈ L, ¬((s.rob.getD j default).busy = true ∧
        (s.rob.getD j default).type = some "BRANCH" ∧
        (s.rob.getD j default).ready = true)) →
      List.foldl resolveOne s L = s
  | [], _, _ => rfl
  | a :: L', s, h => by
    simp only [List.foldl_cons]
    rw [resolveOne_id s a (h a (List.mem_cons_self ..))]
    exact resolveFold_id L' s (fun j hj => h j (List.mem_cons_of_mem a hj))

theorem mispredictResult_rob (s : Sim) (i : Nat) (pc0 : Int) (c : Nat) :
    (mispredictResult s i pc0 c).rob =
      ((List.range s.rob.length).foldl (flushStep (s.rob.getD i default))
        (mispredictPre s i pc0)).rob := rfl

theorem mispredictResult_rs (s : Sim) (i : Nat) (pc0 : Int) (c : Nat) :
    (mispredictResult s i pc0 c).rs =
      ((List.range s.rob.length).foldl (flushStep (s.rob.getD i default))
        (mispredictPre s i pc0)).rs := rfl

theorem mispredictResult_lsb (s : Sim) (i : Nat) (pc0 : Int) (c : Nat) :
    (mispredictResult s i pc0 c).lsb =
      ((List.range s.rob.length).foldl (flushStep (s.rob.getD i default))
        (mispredictPre s i pc0)).lsb := rfl

theorem branchTarget_fold (ent : ROBEntry) (L : List Nat) (st : Sim) (pc : Int) :
    branchTarget (List.foldl (flushStep ent) st L) pc = branchTarget st pc := by
  simp only [branchTarget, flushFold_program]

theorem mispredictResult_RAT (s : Sim) (i : Nat) (pc0 : Int) (c : Nat) (cp : Checkpoint)
    (hcps : s.checkpoints c = some cp) :
    (mispredictResult s i pc0 c).RAT = cp.RAT := by
  simp only [mispredictResult]
  rw [flushFold_checkpoints]
  show ((s.checkpoints c).getD ⟨0, fun _ => none, 0⟩).RAT = cp.RAT
  rw [hcps]
  rfl

theorem mispredictResult_pc (s : Sim) (i : Nat) (pc0 : Int) (c : Nat) :
    (mispredictResult s i pc0 c).pc =
      (if (s.rob.getD i default).branch_taken.getD false = true ∧
          (branchTarget s pc0).isSome = true
       then (branchTarget s pc0).getD 0 else pc0 + 4) := by
  simp only [mispredictResult]
  rw [branchTarget_fold]
  rfl

end Tomasulo

namespace Tomasulo

theorem resolveOne_mispredict_eq (s : Sim) (i : Nat) (pc0 : Int) (c : Nat)
    (hbusy : (s.rob.getD i default).busy = true)
    (htype : (s.rob.getD i default).type = some "BRANCH")
    (hready : (s.rob.getD i default).ready = true)
    (hpc : (s.rob.getD i default).instr_pc = some pc0)
    (hcp : (s.rob.getD i default).checkpoint_id = some c)
    (hc0 : c ≠ 0)
    (hcs : (s.checkpoints c).isSome = true)
    (hmis : s.predictor pc0 ≠ (s.rob.getD i default).branch_taken.getD false) :
    resolveOne s i = mispredictResult s i pc0 c := by
  simp only [resolveOne]
  rw [if_pos ⟨hbusy, htype, hready⟩]
  simp only [hpc]
  rw [if_pos hmis]
  simp only [hcp]
  split
  case isTrue =>
    simp only [mispredictResult, mispredictPre]
    rfl
  case isFalse h =>
    exfalso
    apply h
    rw [flushFold_checkpoints]
    simp [hc0, hcs]

/-- Claim C3: on a mispredicted branch resolution, every busy speculative
ROB entry other than the branch itself is freed together with the RS/LSB
slots it owns; the branch's own ROB entry stays busy (it is retired later
by Commit); the RAT is restored from the checkpoint snapshot; and the pc is
redirected to the branch's immediate target if the actual outcome is taken,
else to the branch's pc + 4.  Hypotheses: the entry at `i` is the only
busy+ready BRANCH entry, its checkpoint is live, the prediction differs
from the actual outcome, the branch instruction's first program occurrence
has immediate `t`, and ROB slot ids match their indices (true of every
reachable state, the slots are built that way). -/
theorem C3_mispredict_recovery (s : Sim) (i : Nat) (pc0 : Int) (c : Nat)
    (cp : Checkpoint) (t : Int)
    (hi : i < s.rob.length)
    (hids : ∀ j, j < s.rob.length → (s.rob.getD j default).id = j)
    (hbusy : (s.rob.getD i default).busy = true)
    (htype : (s.rob.getD i default).type = some "BRANCH")
    (hready : (s.rob.getD i default).ready = true)
    (hpc : (s.rob.getD i default).instr_pc = some pc0)
    (hcp : (s.rob.getD i default).checkpoint_id = some c)
    (hc0 : c ≠ 0)
    (hcps : s.checkpoints c = some cp)
    (hmis : s.predictor pc0 ≠ (s.rob.getD i default).branch_taken.getD false)
    (htgt : branchTarget s pc0 = some t)
    (honly : ∀ j, j < s.rob.length → j ≠ i →
      ¬((s.rob.getD j default).busy = true ∧
        (s.rob.getD j default).type = some "BRANCH" ∧
        (s.rob.getD j default).ready = true)) :
    ((resolveBranches s).rob.getD i default).busy = true ∧
    (∀ j, j < s.rob.length → j ≠ i →
      (s.rob.getD j default).busy = true →
      (s.rob.getD j default).speculative = true →
      ((resolveBranches s).rob.getD j default).busy = false ∧
      (∀ k, (s.rs.getD k default).busy = true →
        (s.rs.getD k default).rob_id = some j →
        ((resolveBranches s).rs.getD k default).busy = false) ∧
      (∀ k, (s.lsb.getD k default).busy = true →
        (s.lsb.getD k default).rob_id = some j →
        ((resolveBranches s).lsb.getD k default).busy = false)) ∧
    (resolveBranches s).RAT = cp.RAT ∧
    (resolveBranches s).pc =
      (if (s.rob.getD i default).branch_taken.getD false = true then t else pc0 + 4) := by
  have hne_of : ∀ j, j < s.rob.length → j ≠ i → s.rob.getD j default ≠ s.rob.getD i default := by
    intro j hj hji he
    apply hji
    rw [← hids j hj, ← hids i hi, he]
  -- resolveBranches reduces to the misprediction transformer
  have hfold : resolveBranches s = mispredictResult s i pc0 c := by
    unfold resolveBranches
    have h1 : s.rob.length - i = (s.rob.length - i - 1) + 1 := by omega
    have h2 : List.range' 0 i ++ List.range' i (s.rob.length - i) =
        List.range' 0 s.rob.length := by
      have h := List.range'_append_1 0 i (s.rob.length - i)
      rw [Nat.zero_add] at h
      nth_rewrite 2 [show s.rob.length = s.rob.length - i + i from by omega]
      exact h
    have h3 : List.range' i (s.rob.length - i) =
        i :: List.range' (i + 1) (s.rob.length - i - 1) := by
      rw [h1, List.range'_succ]
      simp
    have hsplit : List.range s.rob.length =
        List.range' 0 i ++ i :: List.range' (i + 1) (s.rob.length - i - 1) := by
      rw [List.range_eq_range', ← h2, h3]
    rw [hsplit, List.foldl_append, List.foldl_cons]
    rw [resolveFold_id (List.range' 0 i) s (by
      intro j hj
      have hj' := (List.mem_range'_1.mp hj).2
      simp only [Nat.zero_add] at hj'
      exact honly j (by omega) (by omega))]
    rw [resolveOne_mispredict_eq s i pc0 c hbusy htype hready hpc hcp hc0
      (by rw [hcps]; rfl) hmis]
    refine resolveFold_id _ _ ?_
    intro j hj
    have hj' := List.mem_range'_1.mp hj
    have hjlt : j < s.rob.length := by omega
    have hji : j ≠ i := by omega
    have horig : (mispredictResult s i pc0 c).rob.getD j default = s.rob.getD j default ∨
        ((mispredictResult s i pc0 c).rob.getD j default).busy = false := by
      rw [mispredictResult_rob]
      exact flushFold_rob_orig_or_dead _ _ _ j (s.rob.getD j default) (Or.inl rfl)
    rcases horig with horig | hdead
    · rw [horig]
      exact honly j hjlt hji
    · intro hg
      rw [hdead] at hg
      exact absurd hg.1 (by decide)
  refine ⟨?_, ?_, ?_, ?_⟩
  · rw [hfold, mispredictResult_rob]
    rw [flushFold_keeps_ent (s.rob.getD i default) (List.range s.rob.length)
      (mispredictPre s i pc0) i rfl]
    exact hbusy
  · intro j hjlt hji hjb hjs
    have hfree := flushFold_frees (s.rob.getD i default) s (List.range s.rob.length)
      (mispredictPre s i pc0) (List.nodup_range _) rfl (fun _ _ => rfl)
      (fun k => Or.inl rfl) (fun k => Or.inl rfl) j (List.mem_range.mpr hjlt) hjlt
      hjb hjs (hne_of j hjlt hji)
    refine ⟨?_, ?_, ?_⟩
    · rw [hfold, mispredictResult_rob]
      exact hfree.1
    · intro k hkb hkp
      rw [hfold, mispredictResult_rs]
      exact hfree.2.1 k hkb (by rw [hids j hjlt]; exact hkp)
    · intro k hkb hkp
      rw [hfold, mispredictResult_lsb]
      exact hfree.2.2 k hkb (by rw [hids j hjlt]; exact hkp)
  · rw [hfold]
    exact mispredictResult_RAT s i pc0 c cp hcps
  · rw [hfold, mispredictResult_pc, htgt]
    by_cases ha : (s.rob.getD i default).branch_taken.getD false = true <;> simp [ha]

end Tomasulo

namespace Tomasulo

set_option maxRecDepth 40000 in
/-- Witness for the C3 recovery theorem on the concrete mispredicted-branch
state: the branch entry survives, the speculative entry and its station are
freed, and the pc is redirected to the taken target 8. -/
theorem C3_mispredict_recovery_witness :
    ((resolveBranches c3WitnessState).rob.getD 0 default).busy = true ∧
    ((resolveBranches c3WitnessState).rob.getD 1 default).busy = false ∧
    ((resolveBranches c3WitnessState).rs.getD 0 default).busy = false ∧
    (resolveBranches c3WitnessState).pc = 8 := by
  have h := C3_mispredict_recovery c3WitnessState 0 0 1 ⟨1, fun _ => none, 1⟩ 8
    (by decide) (by decide) (by decide) (by decide) (by decide) (by decide)
    (by decide) (by decide) rfl (by decide) (by decide) (by decide)
  refine ⟨h.1, ?_, ?_, ?_⟩
  · exact (h.2.1 1 (by decide) (by decide) (by decide) (by decide)).1
  · exact (h.2.1 1 (by decide) (by decide) (by decide) (by decide)).2.1 0 (by decide) (by decide)
  · rw [h.2.2.2]
    decide

end Tomasulo

namespace Tomasulo

-- ==========================================================================
-- Commit-order analysis (claim C6): pointwise busy/sequence tracking of the
-- ROB through every stage of a cycle.
-- ==========================================================================

theorem getD_mem_or_default {α : Type} [Inhabited α] (l : List α) (j : Nat) :
    l.getD j default ∈ l ∨ l.getD j default = default := by
  by_cases hj : j < l.length
  · left
    rw [List.getD_eq_getElem l default hj]
    exact List.getElem_mem hj
  · right
    exact List.getD_eq_default l default (Nat.le_of_not_lt hj)

theorem busy_lt_len (s : Sim) (j : Nat)
    (h : (s.rob.getD j default).busy = true) : j < s.rob.length := by
  by_contra hc
  rw [List.getD_eq_default s.rob default (Nat.le_of_not_lt hc)] at h
  exact Bool.noConfusion h

theorem getD_map_cases2 {α : Type} [Inhabited α] (f : α → α) (l : List α) (k : Nat) :
    (l.map f).getD k default = f (l.getD k default) ∨
      ((l.map f).getD k default = default ∧ l.getD k default = default) := by
  simp only [List.getD_eq_getElem?_getD, List.getElem?_map]
  cases hk : l[k]? with
  | none => exact Or.inr ⟨rfl, rfl⟩
  | some x => exact Or.inl rfl

/-- Setting a slot to an entry with the same observation and id keeps every
slot's observation and id. -/
theorem set_keep_obs (l : List ROBEntry) (rid : Nat) (e' : ROBEntry)
    (hk : busySeq e' = busySeq (l.getD rid default))
    (hid : e'.id = (l.getD rid default).id) (j : Nat) :
    busySeq ((l.set rid e').getD j default) = busySeq (l.getD j default) ∧
      ((l.set rid e').getD j default).id = (l.getD j default).id := by
  rw [getD_set]
  split
  case isTrue h =>
    rw [← h.1]
    exact ⟨hk, hid⟩
  case isFalse _ => exact ⟨rfl, rfl⟩

/-- Setting a slot to a freed entry with the same id keeps every other
slot's observation and keeps all ids. -/
theorem set_dead_obs (l : List ROBEntry) (rid : Nat) (e' : ROBEntry)
    (hdead : e'.busy = false)
    (hid : e'.id = (l.getD rid default).id) (j : Nat) :
    (busySeq ((l.set rid e').getD j default) = busySeq (l.getD j default) ∨
      ((l.set rid e').getD j default).busy = false) ∧
      ((l.set rid e').getD j default).id = (l.getD j default).id := by
  rw [getD_set]
  split
  case isTrue h =>
    rw [← h.1]
    exact ⟨Or.inr hdead, hid⟩
  case isFalse _ => exact ⟨Or.inl rfl, rfl⟩

/-- Setting a slot to a fresh busy allocation with sequence `q`. -/
theorem set_alloc_obs (l : List ROBEntry) (k : Nat) (e : ROBEntry) (q : Nat)
    (hk : busySeq e = (true, some q)) (hid : e.id = (l.getD k default).id) (j : Nat) :
    (busySeq ((l.set k e).getD j default) = busySeq (l.getD j default) ∨
      (j = k ∧ busySeq ((l.set k e).getD j default) = (true, some q))) ∧
    ((l.set k e).getD j default).id = (l.getD j default).id := by
  rw [getD_set]
  split
  case isTrue h =>
    refine ⟨Or.inr ⟨h.1.symm, hk⟩, ?_⟩
    rw [← h.1]
    exact hid
  case isFalse _ => exact ⟨Or.inl rfl, rfl⟩

theorem map_keep_obs (f : ROBEntry → ROBEntry)
    (hf : ∀ e, busySeq (f e) = busySeq e ∧ (f e).id = e.id)
    (l : List ROBEntry) (j : Nat) :
    busySeq ((l.map f).getD j default) = busySeq (l.getD j default) ∧
      ((l.map f).getD j default).id = (l.getD j default).id := by
  rcases getD_map_cases2 f l j with h | ⟨h1, h2⟩
  · rw [h]
    exact hf _
  · rw [h1, h2]
    exact ⟨rfl, rfl⟩

-- Basic algebra of the stage relations.

theorem weakPres_refl (s : Sim) : WeakPres s s :=
  ⟨rfl, rfl, rfl, rfl, fun _ => rfl, fun _ => Or.inl rfl⟩

theorem weakPres_trans {a b c : Sim} (h1 : WeakPres a b) (h2 : WeakPres b c) :
    WeakPres a c := by
  obtain ⟨l1, z1, w1, q1, i1, p1⟩ := h1
  obtain ⟨l2, z2, w2, q2, i2, p2⟩ := h2
  refine ⟨l2.trans l1, z2.trans z1, w2.trans w1, q2.trans q1,
    fun j => (i2 j).trans (i1 j), fun j => ?_⟩
  rcases p2 j with h | h
  · rcases p1 j with h' | h'
    · exact Or.inl (h.trans h')
    · have hb : (c.rob.getD j default).busy = (b.rob.getD j default).busy :=
        congrArg Prod.fst h
      exact Or.inr (hb.trans h')
  · exact Or.inr h

theorem postRel_refl (s : Sim) : PostRel s s :=
  ⟨rfl, rfl, rfl, Nat.le_refl _, fun _ => rfl, fun _ => Or.inl rfl⟩

theorem postRel_of_weakPres {a b : Sim} (h : WeakPres a b) : PostRel a b := by
  obtain ⟨l1, z1, w1, q1, i1, p1⟩ := h
  exact ⟨l1, z1, w1, Nat.le_of_eq q1.symm, i1,
    fun j => (p1 j).elim Or.inl (fun h' => Or.inr (Or.inl h'))⟩

theorem postRel_trans {a b c : Sim} (h1 : PostRel a b) (h2 : PostRel b c) :
    PostRel a c := by
  obtain ⟨l1, z1, w1, q1, i1, p1⟩ := h1
  obtain ⟨l2, z2, w2, q2, i2, p2⟩ := h2
  refine ⟨l2.trans l1, z2.trans z1, w2.trans w1, Nat.le_trans q1 q2,
    fun j => (i2 j).trans (i1 j), fun j => ?_⟩
  rcases p2 j with h | h | ⟨q, hq, hq1, hq2⟩
  · rcases p1 j with h' | h' | ⟨q, hq, hq1, hq2⟩
    · exact Or.inl (h.trans h')
    · have hb : (c.rob.getD j default).busy = (b.rob.getD j default).busy :=
        congrArg Prod.fst h
      exact Or.inr (Or.inl (hb.trans h'))
    · have hs : (c.rob.getD j default).enqueue_seq = (b.rob.getD j default).enqueue_seq :=
        congrArg Prod.snd h
      exact Or.inr (Or.inr ⟨q, hs.trans hq, hq1, Nat.lt_of_lt_of_le hq2 q2⟩)
  · exact Or.inr (Or.inl h)
  · exact Or.inr (Or.inr ⟨q, hq, Nat.le_trans q1 hq1, hq2⟩)

/-- A state whose ROB, size, width and allocation counter agree with `a`'s
is in `WeakPres` relation with it. -/
theorem weakPres_keep (a b : Sim) (hrob : b.rob = a.rob) (hz : b.rob_size = a.rob_size)
    (hw : b.commit_width = a.commit_width) (hq : b.rob_enqueue_seq = a.rob_enqueue_seq) :
    WeakPres a b :=
  ⟨by rw [hrob], hz, hw, hq, fun j => by rw [hrob], fun j => Or.inl (by rw [hrob])⟩

/-- A stage that only rewrites one ROB slot, keeping its observation. -/
theorem weakPres_set_keep (a b : Sim) (rid : Nat) (e' : ROBEntry)
    (hrob : b.rob = a.rob.set rid e')
    (hk : busySeq e' = busySeq (a.rob.getD rid default))
    (hid : e'.id = (a.rob.getD rid default).id)
    (hz : b.rob_size = a.rob_size) (hw : b.commit_width = a.commit_width)
    (hq : b.rob_enqueue_seq = a.rob_enqueue_seq) : WeakPres a b := by
  refine ⟨by rw [hrob]; simp, hz, hw, hq, fun j => ?_, fun j => ?_⟩
  · rw [hrob]
    exact (set_keep_obs a.rob rid e' hk hid j).2
  · rw [hrob]
    exact Or.inl (set_keep_obs a.rob rid e' hk hid j).1

/-- A stage that only frees one ROB slot (keeping its id). -/
theorem weakPres_set_dead (a b : Sim) (rid : Nat) (e' : ROBEntry)
    (hrob : b.rob = a.rob.set rid e')
    (hdead : e'.busy = false)
    (hid : e'.id = (a.rob.getD rid default).id)
    (hz : b.rob_size = a.rob_size) (hw : b.commit_width = a.commit_width)
    (hq : b.rob_enqueue_seq = a.rob_enqueue_seq) : WeakPres a b := by
  refine ⟨by rw [hrob]; simp, hz, hw, hq, fun j => ?_, fun j => ?_⟩
  · rw [hrob]
    exact (set_dead_obs a.rob rid e' hdead hid j).2
  · rw [hrob]
    exact (set_dead_obs a.rob rid e' hdead hid j).1

/-- A stage that rewrites one slot keeping its observation and then maps an
observation-preserving function over the ROB. -/
theorem weakPres_set_map (a : Sim) (b : Sim) (i : Nat) (e1 : ROBEntry)
    (f : ROBEntry → ROBEntry)
    (hrob : b.rob = (a.rob.set i e1).map f)
    (hk : busySeq e1 = busySeq (a.rob.getD i default))
    (hid : e1.id = (a.rob.getD i default).id)
    (hf : ∀ e, busySeq (f e) = busySeq e ∧ (f e).id = e.id)
    (hz : b.rob_size = a.rob_size) (hw : b.commit_width = a.commit_width)
    (hq : b.rob_enqueue_seq = a.rob_enqueue_seq) : WeakPres a b := by
  refine ⟨by rw [hrob]; simp, hz, hw, hq, fun j => ?_, fun j => Or.inl ?_⟩
  · rw [hrob]
    exact ((map_keep_obs f hf _ j).2).trans ((set_keep_obs a.rob i e1 hk hid j).2)
  · rw [hrob]
    exact ((map_keep_obs f hf _ j).1).trans ((set_keep_obs a.rob i e1 hk hid j).1)

/-- A relation preserved by every fold step holds between the fold's start
and its result. -/
theorem foldl_rel {σ α : Type} (R : σ → σ → Prop)
    (htrans : ∀ a b c, R a b → R b c → R a c)
    (f : σ → α → σ) (hf : ∀ s a, R s (f s a)) :
    ∀ (l : List α) (s s0 : σ), R s0 s → R s0 (List.foldl f s l)
  | [], _, _, h => h
  | a :: l, s, s0, h => foldl_rel R htrans f hf l (f s a) s0 (htrans _ _ _ h (hf s a))

-- Per-stage WeakPres lemmas.

theorem flushStep_weak (ent : ROBEntry) (s : Sim) (j : Nat) :
    WeakPres s (flushStep ent s j) := by
  simp only [flushStep]
  repeat' split
  all_goals first
    | exact weakPres_keep _ _ rfl rfl rfl rfl
    | exact weakPres_set_dead _ _ _ _ rfl rfl rfl rfl rfl rfl

theorem weakPres_flushFold (ent : ROBEntry) (l : List Nat) (a st d : Sim)
    (hd : d.rob = (List.foldl (flushStep ent) st l).rob)
    (hz2 : d.rob_size = (List.foldl (flushStep ent) st l).rob_size)
    (hw2 : d.commit_width = (List.foldl (flushStep ent) st l).commit_width)
    (hq2 : d.rob_enqueue_seq = (List.foldl (flushStep ent) st l).rob_enqueue_seq)
    (hst : st.rob = a.rob) (hz : st.rob_size = a.rob_size)
    (hw : st.commit_width = a.commit_width) (hq : st.rob_enqueue_seq = a.rob_enqueue_seq) :
    WeakPres a d := by
  have h1 : WeakPres st (List.foldl (flushStep ent) st l) :=
    foldl_rel WeakPres (fun _ _ _ h h' => weakPres_trans h h') (flushStep ent)
      (flushStep_weak ent) l st st (weakPres_refl st)
  exact weakPres_trans (weakPres_trans (weakPres_keep a st hst hz hw hq) h1)
    (weakPres_keep _ d hd hz2 hw2 hq2)

theorem wrRSStep_weak (acc : Sim × List CDBResult) (i : Nat) :
    WeakPres acc.1 (wrRSStep acc i).1 := by
  simp only [wrRSStep, markWBAll]
  repeat' split
  all_goals first
    | exact weakPres_keep _ _ rfl rfl rfl rfl
    | exact weakPres_set_keep _ _ _ _ rfl rfl rfl rfl rfl rfl

theorem wrLSBStep_weak (acc : Sim × List CDBResult) (i : Nat) :
    WeakPres acc.1 (wrLSBStep acc i).1 := by
  simp only [wrLSBStep, markWBAll]
  repeat' split
  all_goals exact weakPres_keep _ _ rfl rfl rfl rfl

theorem applyResult_weak (s : Sim) (res : CDBResult) :
    WeakPres s (applyResult s res) := by
  simp only [applyResult]
  repeat' split
  all_goals first
    | exact weakPres_keep _ _ rfl rfl rfl rfl
    | exact weakPres_set_keep _ _ _ _ rfl rfl rfl rfl rfl rfl

theorem writeResultStage_weak (s : Sim) : WeakPres s (writeResultStage s) := by
  unfold writeResultStage
  have h1 := foldl_rel (fun a b : Sim × List CDBResult => WeakPres a.1 b.1)
    (fun _ _ _ h h' => weakPres_trans h h') wrRSStep wrRSStep_weak
    (List.range s.rs.length) (s, []) (s, []) (weakPres_refl s)
  have h2 := foldl_rel (fun a b : Sim × List CDBResult => WeakPres a.1 b.1)
    (fun _ _ _ h h' => weakPres_trans h h') wrLSBStep wrLSBStep_weak
    (List.range ((List.range s.rs.length).foldl wrRSStep (s, [])).1.lsb.length)
    ((List.range s.rs.length).foldl wrRSStep (s, [])) (s, []) h1
  exact foldl_rel WeakPres (fun _ _ _ h h' => weakPres_trans h h')
    applyResult applyResult_weak _ _ s h2

theorem beqCheckStep_weak (s : Sim) (i : Nat) : WeakPres s (beqCheckStep s i) := by
  simp only [beqCheckStep]
  repeat' split
  all_goals first
    | exact weakPres_keep _ _ rfl rfl rfl rfl
    | exact weakPres_set_keep _ _ _ _ rfl rfl rfl rfl rfl rfl

theorem beqFold_weak (s : Sim) :
    WeakPres s ((List.range s.rs.length).foldl beqCheckStep s) :=
  foldl_rel WeakPres (fun _ _ _ h h' => weakPres_trans h h') beqCheckStep
    beqCheckStep_weak _ s s (weakPres_refl s)

theorem resolveOne_weak (s : Sim) (i : Nat) : WeakPres s (resolveOne s i) := by
  simp only [resolveOne, deleteCheckpoint, updProgram]
  repeat' split
  all_goals first
    | exact weakPres_keep _ _ rfl rfl rfl rfl
    | exact weakPres_flushFold _ _ s _ _ rfl rfl rfl rfl rfl rfl rfl rfl
    | exact weakPres_set_map s _ i _ _ rfl rfl rfl
        (fun e => ⟨by split <;> rfl, by split <;> rfl⟩) rfl rfl rfl

theorem resolveBranches_weak (s : Sim) : WeakPres s (resolveBranches s) := by
  unfold resolveBranches
  exact foldl_rel WeakPres (fun _ _ _ h h' => weakPres_trans h h') resolveOne
    resolveOne_weak _ s s (weakPres_refl s)

theorem execRSStep_weak (s : Sim) (i : Nat) : WeakPres s (execRSStep s i) := by
  simp only [execRSStep]
  repeat' split
  all_goals exact weakPres_keep _ _ rfl rfl rfl rfl

theorem execLSBStep_weak (s : Sim) (i : Nat) : WeakPres s (execLSBStep s i) := by
  simp only [execLSBStep]
  repeat' split
  all_goals exact weakPres_keep _ _ rfl rfl rfl rfl

theorem executeStage_weak (s : Sim) : WeakPres s (executeStage s) := by
  unfold executeStage
  have h1 := foldl_rel WeakPres (fun _ _ _ h h' => weakPres_trans h h') execRSStep
    execRSStep_weak (List.range s.rs.length) s s (weakPres_refl s)
  exact foldl_rel WeakPres (fun _ _ _ h h' => weakPres_trans h h') execLSBStep
    execLSBStep_weak _ _ s h1

theorem haltCheck_weak (s : Sim) : WeakPres s (haltCheck s) := by
  simp only [haltCheck]
  repeat' split
  all_goals exact weakPres_keep _ _ rfl rfl rfl rfl

end Tomasulo

namespace Tomasulo

-- CommitInv transport along WeakPres.

theorem commitInv_of_weakPres {a b : Sim} (hJ : CommitInv a) (h : WeakPres a b) :
    CommitInv b := by
  obtain ⟨hlen, hw, hids, hseq, hdist⟩ := hJ
  obtain ⟨l1, z1, w1, q1, hi, hp⟩ := h
  refine ⟨by rw [l1, z1]; exact hlen, by rw [w1]; exact hw, ?_, ?_, ?_⟩
  · intro j hj
    rw [hi j]
    exact hids j (by rw [← l1]; exact hj)
  · intro j hb
    rcases hp j with h' | h'
    · have hbb : (b.rob.getD j default).busy = (a.rob.getD j default).busy :=
        congrArg Prod.fst h'
      have hss : (b.rob.getD j default).enqueue_seq = (a.rob.getD j default).enqueue_seq :=
        congrArg Prod.snd h'
      obtain ⟨q, hq1, hq2⟩ := hseq j (by rw [← hbb]; exact hb)
      exact ⟨q, by rw [hss]; exact hq1, by rw [q1]; exact hq2⟩
    · rw [h'] at hb
      exact Bool.noConfusion hb
  · intro j j' hne hbj hbj'
    rcases hp j with h1 | h1
    · rcases hp j' with h2 | h2
      · have hss1 : (b.rob.getD j default).enqueue_seq = (a.rob.getD j default).enqueue_seq :=
          congrArg Prod.snd h1
        have hss2 : (b.rob.getD j' default).enqueue_seq = (a.rob.getD j' default).enqueue_seq :=
          congrArg Prod.snd h2
        have k1 : seqKey (b.rob.getD j default) = seqKey (a.rob.getD j default) := by
          unfold seqKey
          rw [hss1]
        have k2 : seqKey (b.rob.getD j' default) = seqKey (a.rob.getD j' default) := by
          unfold seqKey
          rw [hss2]
        have hbb1 : (b.rob.getD j default).busy = (a.rob.getD j default).busy :=
          congrArg Prod.fst h1
        have hbb2 : (b.rob.getD j' default).busy = (a.rob.getD j' default).busy :=
          congrArg Prod.fst h2
        rw [hbb1] at hbj
        rw [hbb2] at hbj'
        rw [k1, k2]
        exact hdist j j' hne hbj hbj'
      · rw [h2] at hbj'
        exact Bool.noConfusion hbj'
    · rw [h1] at hbj
      exact Bool.noConfusion hbj

-- Commit stage: the per-entry commit is a pointwise free of the entry's slot.

theorem commitOne_rob (s : Sim) (ent : ROBEntry) :
    (commitOne s ent).rob = s.rob.set ent.id (commitFreeEntry ent) := by
  simp only [commitOne]
  repeat' split
  all_goals rfl

theorem commitOne_cfg (s : Sim) (ent : ROBEntry) :
    (commitOne s ent).rob_size = s.rob_size ∧
    (commitOne s ent).commit_width = s.commit_width ∧
    (commitOne s ent).rob_enqueue_seq = s.rob_enqueue_seq := by
  simp only [commitOne]
  repeat' split
  all_goals exact ⟨rfl, rfl, rfl⟩

theorem commitOne_weak (s : Sim) (ent : ROBEntry)
    (hid : (s.rob.getD ent.id default).id = ent.id) :
    WeakPres s (commitOne s ent) := by
  obtain ⟨h1, h2, h3⟩ := commitOne_cfg s ent
  refine ⟨?_, h1, h2, h3, fun j => ?_, fun j => ?_⟩
  · rw [commitOne_rob]
    simp
  · rw [commitOne_rob]
    exact (set_dead_obs s.rob ent.id (commitFreeEntry ent) rfl
      (by show ent.id = _; rw [hid]) j).2
  · rw [commitOne_rob]
    exact (set_dead_obs s.rob ent.id (commitFreeEntry ent) rfl
      (by show ent.id = _; rw [hid]) j).1

-- Commit loop: trace shape, length and readiness.

theorem commitLoop_trace : ∀ (l : List ROBEntry) (s : Sim),
    (commitLoop s l).2 = l.takeWhile (fun e => e.ready)
  | [], _ => rfl
  | ent :: rest, s => by
    simp only [commitLoop]
    split
    case isTrue h =>
      rw [List.takeWhile_cons_of_pos h]
      exact congrArg (fun t => ent :: t) (commitLoop_trace rest (commitOne s ent))
    case isFalse h =>
      rw [List.takeWhile_cons_of_neg h]

theorem commitLoop_len : ∀ (l : List ROBEntry) (s : Sim),
    (commitLoop s l).2.length ≤ l.length
  | [], _ => Nat.le_refl _
  | ent :: rest, s => by
    simp only [commitLoop]
    split
    · exact Nat.succ_le_succ (commitLoop_len rest (commitOne s ent))
    · exact Nat.zero_le _

theorem commitLoop_ready : ∀ (l : List ROBEntry) (s : Sim) (e : ROBEntry),
    e ∈ (commitLoop s l).2 → e.ready = true
  | [], _, _, h => absurd h (List.not_mem_nil _)
  | ent :: rest, s, e, h => by
    revert h
    simp only [commitLoop]
    split
    case isTrue hr =>
      intro h
      rcases List.mem_cons.mp h with h' | h'
      · rw [h']
        exact hr
      · exact commitLoop_ready rest (commitOne s ent) e h'
    case isFalse _ =>
      intro h
      exact absurd h (List.not_mem_nil _)

theorem commitStageAux_trace (s : Sim) :
    (commitStageAux s).2 = ((sortedBusy s).take s.commit_width).takeWhile (fun e => e.ready) :=
  commitLoop_trace _ s

theorem commitStageAux_len (s : Sim) :
    (commitStageAux s).2.length ≤ s.commit_width :=
  Nat.le_trans (commitLoop_len _ s) (List.length_take_le _ _)

theorem commitStageAux_ready (s : Sim) (e : ROBEntry)
    (h : e ∈ (commitStageAux s).2) : e.ready = true :=
  commitLoop_ready _ s e h

/-- With the configured commit width 1, a cycle's Commit either does nothing
or retires exactly the head of the sorted busy list (when it is ready). -/
theorem commitStageAux_cases (s : Sim) (hw : s.commit_width = 1) :
    ((commitStageAux s).1 = s ∧ (commitStageAux s).2 = []) ∨
    (∃ ent rest, sortedBusy s = ent :: rest ∧ ent.ready = true ∧
      (commitStageAux s).1 = commitOne s ent ∧ (commitStageAux s).2 = [ent]) := by
  unfold commitStageAux
  rw [hw]
  cases hsb : sortedBusy s with
  | nil => exact Or.inl ⟨rfl, rfl⟩
  | cons ent rest =>
    by_cases hr : ent.ready = true
    · refine Or.inr ⟨ent, rest, rfl, hr, ?_, ?_⟩
      · show (commitLoop s ((ent :: rest).take 1)).1 = commitOne s ent
        simp only [List.take_succ_cons, List.take_zero, commitLoop]
        rw [if_pos hr]
      · show (commitLoop s ((ent :: rest).take 1)).2 = [ent]
        simp only [List.take_succ_cons, List.take_zero, commitLoop]
        rw [if_pos hr]
    · refine Or.inl ⟨?_, ?_⟩
      · show (commitLoop s ((ent :: rest).take 1)).1 = s
        simp only [List.take_succ_cons, List.take_zero, commitLoop]
        rw [if_neg hr]
      · show (commitLoop s ((ent :: rest).take 1)).2 = []
        simp only [List.take_succ_cons, List.take_zero, commitLoop]
        rw [if_neg hr]

end Tomasulo

namespace Tomasulo

-- Issue stage: after the ROB allocation, every helper preserves the
-- busy/sequence observation pointwise; the allocation itself adds one busy
-- entry carrying the pre-increment allocation counter as its sequence.

theorem issueFillROB_len (s : Sim) (instr : Instruction) (k : Nat) :
    (issueFillROB s instr k).rob.length = s.rob.length := by
  simp [issueFillROB]

theorem issueFillROB_cfg (s : Sim) (instr : Instruction) (k : Nat) :
    (issueFillROB s instr k).rob_size = s.rob_size ∧
    (issueFillROB s instr k).commit_width = s.commit_width ∧
    (issueFillROB s instr k).rob_enqueue_seq = s.rob_enqueue_seq + 1 :=
  ⟨rfl, rfl, rfl⟩

theorem issueFillROB_obs (s : Sim) (instr : Instruction) (k : Nat) (j : Nat) :
    (busySeq ((issueFillROB s instr k).rob.getD j default) = busySeq (s.rob.getD j default) ∨
      (j = k ∧
        busySeq ((issueFillROB s instr k).rob.getD j default) = (true, some s.rob_enqueue_seq))) ∧
    ((issueFillROB s instr k).rob.getD j default).id = (s.rob.getD j default).id := by
  exact set_alloc_obs s.rob k _ s.rob_enqueue_seq
    (by repeat' split
        all_goals rfl)
    (by repeat' split
        all_goals rfl) j

theorem issueFillROB_postRel (s : Sim) (instr : Instruction) (k : Nat) :
    PostRel s (issueFillROB s instr k) := by
  refine ⟨issueFillROB_len s instr k, (issueFillROB_cfg s instr k).1,
    (issueFillROB_cfg s instr k).2.1, ?_, fun j => (issueFillROB_obs s instr k j).2,
    fun j => ?_⟩
  · rw [(issueFillROB_cfg s instr k).2.2]
    exact Nat.le_succ _
  · rcases (issueFillROB_obs s instr k j).1 with h | ⟨_, h⟩
    · exact Or.inl h
    · refine Or.inr (Or.inr ⟨s.rob_enqueue_seq, congrArg Prod.snd h, Nat.le_refl _, ?_⟩)
      rw [(issueFillROB_cfg s instr k).2.2]
      exact Nat.lt_succ_self _

theorem seqKey_eq_of_seq {e : ROBEntry} {q : Nat} (h : e.enqueue_seq = some q) :
    seqKey e = q := by
  unfold seqKey
  rw [h]
  rfl

/-- The invariant does not mention the pc. -/
theorem commitInv_pc (s : Sim) (x : Int) (hJ : CommitInv s) :
    CommitInv { s with pc := x } := hJ

theorem issueFillROB_commitInv (s : Sim) (instr : Instruction) (k : Nat)
    (hJ : CommitInv s) : CommitInv (issueFillROB s instr k) := by
  obtain ⟨hlen, hw, hids, hseq, hdist⟩ := hJ
  have hL := issueFillROB_len s instr k
  have hcfg := issueFillROB_cfg s instr k
  refine ⟨?_, ?_, ?_, ?_, ?_⟩
  · rw [hL, hcfg.1]
    exact hlen
  · rw [hcfg.2.1]
    exact hw
  · intro j hj
    rw [(issueFillROB_obs s instr k j).2]
    exact hids j (by rw [← hL]; exact hj)
  · intro j hb
    rcases (issueFillROB_obs s instr k j).1 with h | ⟨_, h⟩
    · have hbb : ((issueFillROB s instr k).rob.getD j default).busy =
          (s.rob.getD j default).busy := congrArg Prod.fst h
      have hss : ((issueFillROB s instr k).rob.getD j default).enqueue_seq =
          (s.rob.getD j default).enqueue_seq := congrArg Prod.snd h
      obtain ⟨q, hq1, hq2⟩ := hseq j (by rw [← hbb]; exact hb)
      exact ⟨q, by rw [hss]; exact hq1, by rw [hcfg.2.2]; exact Nat.lt_succ_of_lt hq2⟩
    · refine ⟨s.rob_enqueue_seq, congrArg Prod.snd h, ?_⟩
      rw [hcfg.2.2]
      exact Nat.lt_succ_self _
  · intro j j' hne hbj hbj'
    have keyEq : ∀ m, (issueFillROB s instr k).rob.getD m default =
        (issueFillROB s instr k).rob.getD m default := fun _ => rfl
    rcases (issueFillROB_obs s instr k j).1 with h1 | ⟨hjk, h1⟩ <;>
      rcases (issueFillROB_obs s instr k j').1 with h2 | ⟨hjk', h2⟩
    · have hbb1 : ((issueFillROB s instr k).rob.getD j default).busy =
          (s.rob.getD j default).busy := congrArg Prod.fst h1
      have hbb2 : ((issueFillROB s instr k).rob.getD j' default).busy =
          (s.rob.getD j' default).busy := congrArg Prod.fst h2
      have hss1 : ((issueFillROB s instr k).rob.getD j default).enqueue_seq =
          (s.rob.getD j default).enqueue_seq := congrArg Prod.snd h1
      have hss2 : ((issueFillROB s instr k).rob.getD j' default).enqueue_seq =
          (s.rob.getD j' default).enqueue_seq := congrArg Prod.snd h2
      have k1 : seqKey ((issueFillROB s instr k).rob.getD j default) =
          seqKey (s.rob.getD j default) := by
        unfold seqKey
        rw [hss1]
      have k2 : seqKey ((issueFillROB s instr k).rob.getD j' default) =
          seqKey (s.rob.getD j' default) := by
        unfold seqKey
        rw [hss2]
      rw [hbb1] at hbj
      rw [hbb2] at hbj'
      rw [k1, k2]
      exact hdist j j' hne hbj hbj'
    · -- j kept, j' freshly allocated at the old counter
      have hbb1 : ((issueFillROB s instr k).rob.getD j default).busy =
          (s.rob.getD j default).busy := congrArg Prod.fst h1
      have hss1 : ((issueFillROB s instr k).rob.getD j default).enqueue_seq =
          (s.rob.getD j default).enqueue_seq := congrArg Prod.snd h1
      obtain ⟨q, hq1, hq2⟩ := hseq j (by rw [← hbb1]; exact hbj)
      have hss2 : ((issueFillROB s instr k).rob.getD j' default).enqueue_seq =
          some s.rob_enqueue_seq := congrArg Prod.snd h2
      rw [seqKey_eq_of_seq (hss1.trans hq1), seqKey_eq_of_seq hss2]
      exact Nat.ne_of_lt hq2
    · have hbb2 : ((issueFillROB s instr k).rob.getD j' default).busy =
          (s.rob.getD j' default).busy := congrArg Prod.fst h2
      have hss2 : ((issueFillROB s instr k).rob.getD j' default).enqueue_seq =
          (s.rob.getD j' default).enqueue_seq := congrArg Prod.snd h2
      obtain ⟨q, hq1, hq2⟩ := hseq j' (by rw [← hbb2]; exact hbj')
      have hss1 : ((issueFillROB s instr k).rob.getD j default).enqueue_seq =
          some s.rob_enqueue_seq := congrArg Prod.snd h1
      rw [seqKey_eq_of_seq (hss2.trans hq1), seqKey_eq_of_seq hss1]
      exact (Nat.ne_of_lt hq2).symm
    · exact absurd (hjk.trans hjk'.symm) hne

theorem issueSpeculation_weak (s : Sim) (idx : Nat) (instr : Instruction) (k : Nat) :
    WeakPres s (issueSpeculation s idx instr k) := by
  simp only [issueSpeculation, updProgram]
  repeat' split
  all_goals first
    | exact weakPres_keep _ _ rfl rfl rfl rfl
    | exact weakPres_set_keep _ _ _ _ rfl rfl rfl rfl rfl rfl

theorem issueLoadStore_weak (s : Sim) (idx : Nat) (instr : Instruction) (k m : Nat) :
    WeakPres s (issueLoadStore s idx instr k m) := by
  simp only [issueLoadStore, updProgram]
  repeat' split
  all_goals first
    | exact weakPres_keep _ _ rfl rfl rfl rfl
    | exact weakPres_set_keep _ _ _ _ rfl rfl rfl rfl rfl rfl

theorem issueBranch_weak (s : Sim) (idx : Nat) (instr : Instruction) (k m : Nat) :
    WeakPres s (issueBranch s idx instr k m) := by
  simp only [issueBranch, rsCaptureOperands, updProgram]
  repeat' split
  all_goals exact weakPres_keep _ _ rfl rfl rfl rfl

theorem issueArith_weak (s : Sim) (idx : Nat) (instr : Instruction) (k m : Nat) :
    WeakPres s (issueArith s idx instr k m) := by
  simp only [issueArith, rsCaptureOperands, updProgram]
  repeat' split
  all_goals exact weakPres_keep _ _ rfl rfl rfl rfl

theorem issueFooter_weak (s : Sim) : WeakPres s (issueFooter s) :=
  weakPres_keep _ _ rfl rfl rfl rfl

theorem issueOne_weakTail (s : Sim) (idx : Nat) (instr : Instruction) (k : Nat)
    (lsb rs : Option Nat) :
    WeakPres (issueFillROB s instr k) (issueOne s idx instr k lsb rs) := by
  simp only [issueOne]
  refine weakPres_trans (issueSpeculation_weak (issueFillROB s instr k) idx instr k) ?_
  split
  · exact weakPres_trans (issueLoadStore_weak _ idx instr k _) (issueFooter_weak _)
  · split
    · exact weakPres_trans (issueBranch_weak _ idx instr k _) (issueFooter_weak _)
    · exact weakPres_trans (issueArith_weak _ idx instr k _) (issueFooter_weak _)

theorem issueOne_commitInv (s : Sim) (idx : Nat) (instr : Instruction) (k : Nat)
    (lsb rs : Option Nat) (hJ : CommitInv s) :
    CommitInv (issueOne s idx instr k lsb rs) :=
  commitInv_of_weakPres (issueFillROB_commitInv s instr k hJ)
    (issueOne_weakTail s idx instr k lsb rs)

theorem issueOne_postRel (s : Sim) (idx : Nat) (instr : Instruction) (k : Nat)
    (lsb rs : Option Nat) : PostRel s (issueOne s idx instr k lsb rs) :=
  postRel_trans (issueFillROB_postRel s instr k)
    (postRel_of_weakPres (issueOne_weakTail s idx instr k lsb rs))

theorem issueLoop_rel : ∀ (n : Nat) (s : Sim) (m : Nat), CommitInv s →
    CommitInv (issueLoop s m n).1 ∧ PostRel s (issueLoop s m n).1
  | 0, s, _, hJ => ⟨hJ, postRel_refl s⟩
  | n+1, s, m, hJ => by
    simp only [issueLoop]
    repeat' split
    all_goals first
    | exact ⟨hJ, postRel_refl s⟩
    | exact ⟨hJ, ⟨rfl, rfl, rfl, Nat.le_refl _, fun _ => rfl, fun _ => Or.inl rfl⟩⟩
    | (refine ⟨(issueLoop_rel n _ m (commitInv_pc s _ hJ)).1,
        postRel_trans ⟨rfl, rfl, rfl, Nat.le_refl _, fun _ => rfl, fun _ => Or.inl rfl⟩
          (issueLoop_rel n _ m (commitInv_pc s _ hJ)).2⟩)
    | (refine ⟨(issueLoop_rel n _ (m+1) (issueOne_commitInv _ _ _ _ _ _ hJ)).1,
        postRel_trans (issueOne_postRel _ _ _ _ _ _)
          (issueLoop_rel n _ (m+1) (issueOne_commitInv _ _ _ _ _ _ hJ)).2⟩)

theorem issueStage_facts (s : Sim) (hJ : CommitInv s) :
    CommitInv (issueStage s).1 ∧ PostRel s (issueStage s).1 :=
  issueLoop_rel s.issue_width s 0 hJ

theorem postCommit_facts (st : Sim) (hJ : CommitInv st) :
    CommitInv (postCommit st) ∧ PostRel st (postCommit st) := by
  have w1 := writeResultStage_weak st
  have w2 := beqFold_weak (writeResultStage st)
  have a2 := weakPres_trans w1 w2
  have w3 := resolveBranches_weak
    ((List.range (writeResultStage st).rs.length).foldl beqCheckStep (writeResultStage st))
  have a3 := weakPres_trans a2 w3
  have w4 := executeStage_weak (resolveBranches
    ((List.range (writeResultStage st).rs.length).foldl beqCheckStep (writeResultStage st)))
  have a4 := weakPres_trans a3 w4
  have hJ4 := commitInv_of_weakPres hJ a4
  have i5 := issueStage_facts _ hJ4
  have a5 := postRel_trans (postRel_of_weakPres a4) i5.2
  have w6 := haltCheck_weak (issueStage (executeStage (resolveBranches
    ((List.range (writeResultStage st).rs.length).foldl beqCheckStep (writeResultStage st))))).1
  exact ⟨commitInv_of_weakPres i5.1 w6, postRel_trans a5 (postRel_of_weakPres w6)⟩

end Tomasulo

namespace Tomasulo

-- Transport of lower bounds along a cycle's PostRel.

theorem min_transport {a b : Sim} (h : PostRel a b) (q : Nat)
    (hmin : ∀ j, (a.rob.getD j default).busy = true → q < seqKey (a.rob.getD j default))
    (hq : q < a.rob_enqueue_seq) :
    ∀ j, (b.rob.getD j default).busy = true → q < seqKey (b.rob.getD j default) := by
  intro j hb
  rcases h.2.2.2.2.2 j with he | hd | ⟨q', hq', h1, h2⟩
  · have hbb : (b.rob.getD j default).busy = (a.rob.getD j default).busy :=
      congrArg Prod.fst he
    have hss : (b.rob.getD j default).enqueue_seq = (a.rob.getD j default).enqueue_seq :=
      congrArg Prod.snd he
    have hk : seqKey (b.rob.getD j default) = seqKey (a.rob.getD j default) := by
      unfold seqKey
      rw [hss]
    rw [hbb] at hb
    rw [hk]
    exact hmin j hb
  · rw [hd] at hb
    exact Bool.noConfusion hb
  · rw [seqKey_eq_of_seq hq']
    exact Nat.lt_of_lt_of_le hq h1

theorem lb_transport {a b : Sim} (hpost : PostRel a b) (q : Nat)
    (h : (∃ j, (b.rob.getD j default).busy = true ∧ seqKey (b.rob.getD j default) ≤ q) ∨
      b.rob_enqueue_seq ≤ q) :
    (∃ j, (a.rob.getD j default).busy = true ∧ seqKey (a.rob.getD j default) ≤ q) ∨
      a.rob_enqueue_seq ≤ q := by
  rcases h with ⟨j, hbj, hkey⟩ | hge
  · rcases hpost.2.2.2.2.2 j with he | hd | ⟨q', hq', h1, h2⟩
    · have hbb : (b.rob.getD j default).busy = (a.rob.getD j default).busy :=
        congrArg Prod.fst he
      have hss : (b.rob.getD j default).enqueue_seq = (a.rob.getD j default).enqueue_seq :=
        congrArg Prod.snd he
      have hk : seqKey (b.rob.getD j default) = seqKey (a.rob.getD j default) := by
        unfold seqKey
        rw [hss]
      rw [hbb] at hbj
      rw [hk] at hkey
      exact Or.inl ⟨j, hbj, hkey⟩
    · rw [hd] at hbj
      exact Bool.noConfusion hbj
    · right
      refine Nat.le_trans h1 ?_
      rw [← seqKey_eq_of_seq hq']
      exact hkey
  · exact Or.inr (Nat.le_trans hpost.2.2.2.1 hge)

theorem head_bound {a b : Sim} (hpost : PostRel a b) (q : Nat)
    (hmin : ∀ j, (b.rob.getD j default).busy = true → q < seqKey (b.rob.getD j default))
    (hlt : q < a.rob_enqueue_seq) (y : Nat)
    (hy : (∃ j, (b.rob.getD j default).busy = true ∧ seqKey (b.rob.getD j default) ≤ y) ∨
      b.rob_enqueue_seq ≤ y) :
    q < y := by
  rcases hy with ⟨j, hbj, hkey⟩ | hge
  · exact Nat.lt_of_lt_of_le (hmin j hbj) hkey
  · exact Nat.lt_of_lt_of_le (Nat.lt_of_lt_of_le hlt hpost.2.2.2.1) hge

-- The invariant holds in the freshly loaded simulator.

theorem initSim_rob_busy (prog : List Instruction) (j : Nat) :
    ((initSim prog).rob.getD j default).busy = false := by
  have hall : ∀ x ∈ (initSim prog).rob, x.busy = false := by
    show ∀ x ∈ (List.range 16).map (fun i => ({ id := i } : ROBEntry)), x.busy = false
    decide
  rcases getD_mem_or_default (initSim prog).rob j with h | h
  · exact hall _ h
  · rw [h]
    rfl

theorem initSim_commitInv (prog : List Instruction) : CommitInv (initSim prog) := by
  refine ⟨rfl, rfl, ?_, ?_, ?_⟩
  · show ∀ j, j < ((List.range 16).map (fun i => ({ id := i } : ROBEntry))).length →
      (((List.range 16).map (fun i => ({ id := i } : ROBEntry))).getD j default).id = j
    decide
  · intro j hb
    rw [initSim_rob_busy prog j] at hb
    exact Bool.noConfusion hb
  · intro j k hne hbj hbk
    rw [initSim_rob_busy prog j] at hbj
    exact Bool.noConfusion hbj

/-- On a non-halted state, a cycle is the prologue, then Commit, then the
post-Commit stages. -/
theorem stepAux_fst (s : Sim) (hh : s.halted = false) :
    (stepAux s).1 = postCommit (commitStageAux (preCommit s)).1 := by
  unfold stepAux
  rw [if_neg (fun hc => Bool.noConfusion (hh.symm.trans hc))]

/-- On a non-halted state, the cycle's commit trace is Commit's trace. -/
theorem stepAux_snd (s : Sim) (hh : s.halted = false) :
    (stepAux s).2 = (commitStageAux (preCommit s)).2 := by
  unfold stepAux
  rw [if_neg (fun hc => Bool.noConfusion (hh.symm.trans hc))]

theorem stepAux_halted_fst (s : Sim) (hh : s.halted = true) : (stepAux s).1 = s := by
  unfold stepAux
  rw [if_pos hh]

theorem stepAux_halted_snd (s : Sim) (hh : s.halted = true) : (stepAux s).2 = [] := by
  unfold stepAux
  rw [if_pos hh]

set_option maxHeartbeats 1000000 in
/-- One cycle from an invariant state: the invariant is preserved, the ROB
evolves along `PostRel`, and the cycle commits nothing or exactly one entry
that was busy, carries a sequence below the allocation counter, and is
strictly older than every entry left busy after the cycle. -/
theorem step_commit (s : Sim) (hJ : CommitInv s) :
    CommitInv (stepAux s).1 ∧ PostRel s (stepAux s).1 ∧
    ((stepAux s).2.map (fun e => e.enqueue_seq.getD 0) = [] ∨
      ∃ ent, (stepAux s).2.map (fun e => e.enqueue_seq.getD 0) = [seqKey ent] ∧
        (∃ j0, (s.rob.getD j0 default).busy = true ∧ s.rob.getD j0 default = ent) ∧
        seqKey ent < s.rob_enqueue_seq ∧
        (∀ j, ((stepAux s).1.rob.getD j default).busy = true →
          seqKey ent < seqKey ((stepAux s).1.rob.getD j default))) := by
  by_cases hh : s.halted
  · rw [stepAux_halted_fst s hh, stepAux_halted_snd s hh]
    exact ⟨hJ, postRel_refl s, Or.inl rfl⟩
  · have hhf : s.halted = false := by
      revert hh
      cases s.halted <;> simp
    rw [stepAux_fst s hhf, stepAux_snd s hhf]
    have hJp : CommitInv (preCommit s) := hJ
    rcases commitStageAux_cases (preCommit s) hJp.2.1 with
      ⟨hc1, hc2⟩ | ⟨ent, rest, hsb, hready, hc1, hc2⟩
    · rw [hc1, hc2]
      have pf := postCommit_facts (preCommit s) hJp
      refine ⟨?_, ?_, ?_⟩
      · exact pf.1
      · exact postRel_trans
          (⟨rfl, rfl, rfl, Nat.le_refl _, fun _ => rfl, fun _ => Or.inl rfl⟩ :
            PostRel s (preCommit s)) pf.2
      · exact Or.inl rfl
    · have hmem : ent ∈ sortedBusy (preCommit s) := by
        rw [hsb]
        exact List.mem_cons_self ent rest
      have hperm := List.perm_insertionSort seqLe ((preCommit s).rob.filter (·.busy))
      have hmemf : ent ∈ (preCommit s).rob.filter (·.busy) := hperm.mem_iff.mp hmem
      have hentbusy : ent.busy = true := (List.mem_filter.mp hmemf).2
      have hentmem : ent ∈ (preCommit s).rob := (List.mem_filter.mp hmemf).1
      obtain ⟨j0, hj0len, hj0⟩ := List.getElem_of_mem hentmem
      have hgetD : (preCommit s).rob.getD j0 default = ent := by
        rw [List.getD_eq_getElem _ _ hj0len]
        exact hj0
      have hid0 : ent.id = j0 := by
        have h := hJp.2.2.1 j0 hj0len
        rw [hgetD] at h
        exact h
      have hbusy0 : ((preCommit s).rob.getD j0 default).busy = true := by
        rw [hgetD]
        exact hentbusy
      obtain ⟨qe, hqe1, hqe2⟩ := hJp.2.2.2.1 j0 hbusy0
      have hkeyq : seqKey ent = qe := by
        rw [← hgetD]
        exact seqKey_eq_of_seq hqe1
      have hlt : seqKey ent < s.rob_enqueue_seq := by
        rw [hkeyq]
        exact hqe2
      have hsorted : List.Sorted seqLe (sortedBusy (preCommit s)) :=
        List.sorted_insertionSort seqLe _
      have hmin0 : ∀ j, ((preCommit s).rob.getD j default).busy = true → j ≠ j0 →
          seqKey ent < seqKey ((preCommit s).rob.getD j default) := by
        intro j hbj hne
        have hjlen : j < (preCommit s).rob.length := busy_lt_len _ j hbj
        have hjmem : (preCommit s).rob.getD j default ∈ (preCommit s).rob.filter (·.busy) := by
          refine List.mem_filter.mpr ⟨?_, hbj⟩
          rw [List.getD_eq_getElem _ _ hjlen]
          exact List.getElem_mem hjlen
        have hjsort : (preCommit s).rob.getD j default ∈ sortedBusy (preCommit s) :=
          hperm.mem_iff.mpr hjmem
        have hle : seqKey ent ≤ seqKey ((preCommit s).rob.getD j default) := by
          rw [hsb] at hjsort
          rcases List.mem_cons.mp hjsort with h | h
          · exact Nat.le_of_eq (congrArg seqKey h).symm
          · have hs := (List.sorted_cons.mp (by rw [hsb] at hsorted; exact hsorted)).1
            exact hs _ h
        have hne' : seqKey ((preCommit s).rob.getD j default) ≠
            seqKey ((preCommit s).rob.getD j0 default) :=
          hJp.2.2.2.2 j j0 hne hbj hbusy0
        rw [hgetD] at hne'
        exact Nat.lt_of_le_of_ne hle (fun hq => hne' hq.symm)
      have hidc : ((preCommit s).rob.getD ent.id default).id = ent.id := by
        rw [hid0, hgetD]
        exact hid0
      have hcw : WeakPres (preCommit s) (commitOne (preCommit s) ent) :=
        commitOne_weak _ ent hidc
      have hJc : CommitInv (commitOne (preCommit s) ent) := commitInv_of_weakPres hJp hcw
      have hminc : ∀ j, ((commitOne (preCommit s) ent).rob.getD j default).busy = true →
          seqKey ent < seqKey ((commitOne (preCommit s) ent).rob.getD j default) := by
        intro j hbj
        rw [commitOne_rob, getD_set] at hbj ⊢
        split at hbj
        case isTrue h => exact Bool.noConfusion hbj
        case isFalse h =>
          rw [if_neg h]
          refine hmin0 j hbj ?_
          intro hjj
          exact h ⟨by rw [hid0, hjj], by rw [hid0]; exact hj0len⟩
      rw [hc1, hc2]
      have pf := postCommit_facts (commitOne (preCommit s) ent) hJc
      refine ⟨pf.1, ?_, Or.inr ⟨ent, rfl, ⟨j0, hbusy0, hgetD⟩, hlt, ?_⟩⟩
      · exact postRel_trans
          (⟨rfl, rfl, rfl, Nat.le_refl _, fun _ => rfl, fun _ => Or.inl rfl⟩ :
            PostRel s (preCommit s))
          (postRel_trans (postRel_of_weakPres hcw) pf.2)
      · refine min_transport pf.2 (seqKey ent) hminc ?_
        rw [hcw.2.2.2.1]
        exact hlt

/-- Over any run from an invariant state, the committed enqueue sequences
form a strictly ascending chain, and every committed sequence is bounded by
a busy entry of the start state or by the start state's counter. -/
theorem runTrace_chain : ∀ (n : Nat) (s : Sim), CommitInv s →
    List.Chain' (fun a b => a < b) (runTrace s n) ∧
    (∀ q ∈ runTrace s n,
      (∃ j, (s.rob.getD j default).busy = true ∧ seqKey (s.rob.getD j default) ≤ q) ∨
      s.rob_enqueue_seq ≤ q)
  | 0, s, _ => ⟨List.chain'_nil, fun q hq => absurd hq (List.not_mem_nil q)⟩
  | n+1, s, hJ => by
    obtain ⟨hJ1, hpost, htr⟩ := step_commit s hJ
    have ih := runTrace_chain n (step s) hJ1
    rcases htr with h0 | ⟨ent, hmap, ⟨j0, hbj0, hgj0⟩, hlt, hmin⟩
    · constructor
      · simp only [runTrace, h0, List.nil_append]
        exact ih.1
      · intro q hq
        simp only [runTrace, h0, List.nil_append] at hq
        exact lb_transport hpost q (ih.2 q hq)
    · constructor
      · simp only [runTrace, hmap]
        refine (List.chain'_append).mpr ⟨List.chain'_singleton _, ih.1, ?_⟩
        intro x hx y hy
        rw [List.getLast?_singleton] at hx
        have hx' : seqKey ent = x := Option.mem_some_iff.mp hx
        have hy' : y ∈ runTrace (step s) n := List.mem_of_mem_head? hy
        rw [← hx']
        exact head_bound hpost (seqKey ent) hmin hlt y (ih.2 y hy')
      · intro q hq
        simp only [runTrace, hmap] at hq
        rcases List.mem_append.mp hq with h | h
        · have hq' : q = seqKey ent := List.mem_singleton.mp h
          exact Or.inl ⟨j0, hbj0, Nat.le_of_eq (by rw [hgj0, hq'])⟩
        · exact lb_transport hpost q (ih.2 q h)

end Tomasulo

namespace Tomasulo

/-- C6: Commit retires busy ROB entries in ascending enqueue-sequence
order.  Each cycle Commit takes at most `commit_width` entries off the
front of the busy ROB entries sorted by enqueue sequence and stops at the
first one that is not ready (its per-cycle trace is exactly the ready
prefix of that window, has length at most `commit_width`, and every
committed entry is ready); over any whole run of a loaded program the
committed enqueue sequences form a strictly ascending chain. -/
theorem C6_commit_order_ascending :
    (∀ prog n, List.Chain' (fun a b => a < b) (runTrace (initSim prog) n)) ∧
    (∀ s, (commitStageAux s).2 =
      ((sortedBusy s).take s.commit_width).takeWhile (fun e => e.ready)) ∧
    (∀ s, (commitStageAux s).2.length ≤ s.commit_width) ∧
    (∀ s, ∀ e ∈ (commitStageAux s).2, e.ready = true) :=
  ⟨fun prog n => (runTrace_chain n (initSim prog) (initSim_commitInv prog)).1,
   commitStageAux_trace, commitStageAux_len,
   fun s e h => commitStageAux_ready s e h⟩

set_option maxRecDepth 100000 in
/-- Witness for the C6 membership hypothesis: in the fifth cycle of the
one-ADD program, the entry Commit retires is ready. -/
theorem C6_commit_order_ascending_witness :
    ((commitStageAux (stepN (initSim progAddOne) 4)).2.getD 0 default).ready = true :=
  C6_commit_order_ascending.2.2.2 (stepN (initSim progAddOne) 4)
    ((commitStageAux (stepN (initSim progAddOne) 4)).2.getD 0 default) (by decide)

end Tomasulo
